import Mathlib

/-!
# Registration pool allocator and pending payout of scorum

A shallow embedding of `libraries/chain/evaluators/registration_pool.cpp`
(`registration_pool_impl`, `registration_pool_task`,
`registration_pool_evaluator`) together with the properties of its bonus
schedule, its balance clamping and its per committee member rate limit, and of
the pending payout, the committee lookups and the discussion queries of
`libraries/app/database_api.cpp`.

Conventions of the embedding

* `share_type` is an overflow-checked signed 64 bit integer that is declared
  outside of the embedded sources. Amounts are mathematical integers here, so
  the development describes every run in which no checked operation
  overflows. Division on amounts truncates towards zero (`Int.tdiv`).
* `uint32_t` values are natural numbers; every 32 bit operation of the source
  is written with an explicit reduction modulo `2 ^ 32`.
* 256 bit unsigned integers (`u256`) are natural numbers reduced modulo
  `2 ^ 256`; 128 bit ones are natural numbers below `2 ^ 128`.
* A C++ exception is a value of `failure`. A function that mutates chain state
  returns its result together with the state it leaves behind, also when it
  throws, so that the state at the moment of the throw stays observable.
-/

namespace scorum
namespace chain

/-! ## Data model -/

/-- Symbols an asset can carry. -/
inductive asset_symbol_type
  | SCORUM_SYMBOL
  | SP_SYMBOL
  deriving DecidableEq, Repr

open asset_symbol_type

/-- Account names; `account_name_type()` is the empty name. -/
abbrev account_name_type := String

/-- Modelled from the spec: the `asset` of `protocol/asset.hpp`, a symbol-tagged
integer amount. -/
structure asset where
  amount : Int
  symbol : asset_symbol_type
  deriving DecidableEq, Repr

/-- Reasons for which the embedded code throws. -/
inductive failure
  /-- Raised by `_registration_pool_service.get()` without a pool object. -/
  | pool_missing
  /-- Raised by `FC_ASSERT(!pool.schedule_items.empty(), "Invalid schedule.")`. -/
  | invalid_schedule
  /-- Raised by `FC_ASSERT(per_reg.amount > 0, "Invalid schedule. Zero bonus return.")`. -/
  | zero_bonus
  /-- Raised by `FC_ASSERT(balance.amount > 0, "Invalid balance.")`. -/
  | invalid_balance
  /-- Raised by `FC_ASSERT(ret.amount > 0, "Empty balance.")`. -/
  | empty_balance
  /-- Arithmetic or comparison between assets of different symbols. -/
  | symbol_mismatch
  /-- Raised by `_registration_committee_service.get_member` without such a member. -/
  | member_missing
  /-- Raised by `FC_ASSERT(last_allocated_block <= head_block_num)`. -/
  | block_order
  /-- Raised by the assertion that reports that the committee member reaches the
  cash limit. -/
  | cash_limit
  deriving DecidableEq, Repr

/-- Modelled from the spec: `registration_pool_object::schedule_item`, a tier
`(users, bonus_percent)` of the bonus schedule. -/
structure schedule_item where
  users : Nat
  bonus_percent : Nat
  deriving DecidableEq, Repr

/-- Modelled from the spec: the registration pool singleton with its remaining
`balance`, `maximum_bonus`, `already_allocated_count` and ordered schedule. -/
structure registration_pool_object where
  balance : asset
  maximum_bonus : asset
  already_allocated_count : Nat
  schedule_items : List schedule_item
  deriving DecidableEq, Repr

/-- Modelled from the spec: a committee member record
`(account, last_allocated_block, per_n_block_remain, already_allocated_cash)`. -/
structure registration_committee_member_object where
  account : account_name_type
  last_allocated_block : Nat
  per_n_block_remain : Nat
  already_allocated_cash : asset
  deriving DecidableEq, Repr

/-- The two configuration constants of the rate limit,
`SCORUM_REGISTRATION_BONUS_LIMIT_PER_MEMBER_PER_N_BLOCK` and
`SCORUM_REGISTRATION_BONUS_LIMIT_PER_MEMBER_N_BLOCK`; their values are not
part of the embedded sources and are therefore parameters. -/
structure limits where
  LIMIT_PER_MEMBER_PER_N_BLOCK : Nat
  LIMIT_PER_MEMBER_N_BLOCK : Nat
  deriving DecidableEq, Repr

/-- The part of chain state the allocator reads and writes: the pool singleton
(if created), the committee roster and the head block number of the dynamic
global properties. -/
structure database where
  pool : Option registration_pool_object
  members : List registration_committee_member_object
  head_block_number : Nat
  deriving DecidableEq, Repr

/-- Equality of results is decidable, so that closed facts about the embedded
functions can be evaluated. -/
instance instDecidableEqExcept {ε α : Type} [DecidableEq ε] [DecidableEq α] :
    DecidableEq (Except ε α)
  | .ok a, .ok b =>
    if h : a = b then isTrue (by rw [h]) else isFalse (fun h' => h (by cases h'; rfl))
  | .error a, .error b =>
    if h : a = b then isTrue (by rw [h]) else isFalse (fun h' => h (by cases h'; rfl))
  | .ok _, .error _ => isFalse (fun h' => by cases h')
  | .error _, .ok _ => isFalse (fun h' => by cases h')

/-! ## Asset arithmetic and 32 bit arithmetic -/

/-- Modelled from the spec: `a + b` on assets; different symbols are a hard
error. -/
def asset.add (a b : asset) : Except failure asset :=
  if a.symbol = b.symbol then .ok ⟨a.amount + b.amount, a.symbol⟩
  else .error failure.symbol_mismatch

/-- Modelled from the spec: `a - b` on assets; different symbols are a hard
error. -/
def asset.sub (a b : asset) : Except failure asset :=
  if a.symbol = b.symbol then .ok ⟨a.amount - b.amount, a.symbol⟩
  else .error failure.symbol_mismatch

/-- Modelled from the spec: `a <= b` on assets; different symbols are a hard
error. -/
def asset.le (a b : asset) : Except failure Bool :=
  if a.symbol = b.symbol then .ok (decide (a.amount ≤ b.amount))
  else .error failure.symbol_mismatch

/-- Subtraction of `uint32_t` values. -/
def u32_sub (a b : Nat) : Nat := (a + 2 ^ 32 - b % 2 ^ 32) % 2 ^ 32

/-- Addition of `uint32_t` values. -/
def u32_add (a b : Nat) : Nat := (a + b) % 2 ^ 32

/-! ## Services -/

/-- Modelled from the spec: `registration_pool_service_i::decrease_balance`,
which decreases the pool balance by the given amount. -/
def service_decrease_balance (pool : registration_pool_object) (amount : asset) :
    Except failure registration_pool_object :=
  match pool.balance.sub amount with
  | .error e => .error e
  | .ok b => .ok { pool with balance := b }

/-- Modelled from the spec: `increase_already_allocated_count` of the pool
service, which increments `already_allocated_count`. -/
def service_increase_already_allocated_count (pool : registration_pool_object) :
    registration_pool_object :=
  { pool with already_allocated_count := pool.already_allocated_count + 1 }

/-- Modelled from the spec: `registration_committee_service_i::get_member`, the
roster lookup by account name. -/
def get_member (members : List registration_committee_member_object)
    (name : account_name_type) : Option registration_committee_member_object :=
  members.find? (fun m => decide (m.account = name))

/-- Modelled from the spec: `update_member_info`, which commits the modified
record in place of the stored one. -/
def update_member_info :
    List registration_committee_member_object → account_name_type →
      registration_committee_member_object → List registration_committee_member_object
  | [], _, _ => []
  | m :: ms, name, m' =>
    if m.account = name then m' :: ms else m :: update_member_info ms name m'

/-! ## `registration_pool_impl` -/

/-- The loop of `calculate_per_reg_amout` (lines 60-75): the number of schedule
items the iterator has passed when the loop ends; it equals the length of the
schedule exactly when the iterator reached `end()`. -/
def find_position : List schedule_item → Nat → Nat
  | [], _ => 0
  | it :: rest, allocated_rest =>
    if allocated_rest ≥ it.users then 1 + find_position rest (allocated_rest - it.users)
    else 0

/-- Position of `current_item` in `calculate_per_reg_amout`: where the loop
stopped, stepped back by one when it ran out of the schedule (lines 77-82). -/
def tier_index (schedule_items : List schedule_item) (already_allocated_count : Nat) : Nat :=
  let it := find_position schedule_items already_allocated_count
  if it = schedule_items.length then it - 1 else it

/-- The function `registration_pool_impl::calculate_per_reg_amout`. -/
def calculate_per_reg_amout (pool : registration_pool_object) : Except failure asset :=
  if pool.schedule_items.isEmpty then .error failure.invalid_schedule
  else
    match pool.schedule_items[tier_index pool.schedule_items pool.already_allocated_count]? with
    | none => .error failure.invalid_schedule
    | some current_item =>
      .ok ⟨Int.tdiv ((current_item.bonus_percent : Int) * pool.maximum_bonus.amount) 100,
        SCORUM_SYMBOL⟩

/-- The function `registration_pool_impl::decrease_balance`; the second component is the
pool object as the call leaves it. -/
def decrease_balance (pool : registration_pool_object) (balance : asset) :
    Except failure asset × registration_pool_object :=
  if ¬ balance.amount > 0 then (.error failure.invalid_balance, pool)
  else
    let cond : Except failure Bool :=
      if pool.balance.amount > 0 then balance.le pool.balance else .ok false
    match cond with
    | .error e => (.error e, pool)
    | .ok true =>
      match service_decrease_balance pool balance with
      | .error e => (.error e, pool)
      | .ok pool' =>
        if ¬ balance.amount > 0 then (.error failure.empty_balance, pool')
        else (.ok balance, pool')
    | .ok false =>
      let ret := pool.balance
      match service_decrease_balance pool ret with
      | .error e => (.error e, pool)
      | .ok pool' =>
        if ¬ ret.amount > 0 then (.error failure.empty_balance, pool') else (.ok ret, pool')

/-- Lines 97-106 of `take_by_committee_member`: the blocks passed since the
last allocation of the member. -/
def pass_blocks (head_block_num : Nat) (member : registration_committee_member_object) : Nat :=
  let last_allocated_block :=
    if member.last_allocated_block = 0 then head_block_num else member.last_allocated_block
  u32_sub head_block_num last_allocated_block

/-- Lines 108-116 of `take_by_committee_member`: the local
`per_n_block_remain` after it was decreased by the passed blocks. -/
def decayed_remain (head_block_num : Nat) (member : registration_committee_member_object) : Nat :=
  if pass_blocks head_block_num member > member.per_n_block_remain then 0
  else u32_sub member.per_n_block_remain (pass_blocks head_block_num member)

/-- Lines 121-124 of `take_by_committee_member`: `limit_per_memeber`. -/
def limit_per_memeber (cfg : limits) (pool : registration_pool_object)
    (head_block_num : Nat) (member : registration_committee_member_object) : Int :=
  Int.tdiv
    (((u32_add (pass_blocks head_block_num member) 1 : Nat) : Int) * pool.maximum_bonus.amount
      * (cfg.LIMIT_PER_MEMBER_PER_N_BLOCK : Int))
    (cfg.LIMIT_PER_MEMBER_N_BLOCK : Int)

/-- The function `registration_pool_impl::take_by_committee_member`: the record the modifier
commits for the member, or the failure raised before the commit. -/
def take_by_committee_member (cfg : limits) (head_block_num : Nat)
    (pool : registration_pool_object) (member : registration_committee_member_object)
    (amount : asset) : Except failure registration_committee_member_object :=
  if ¬ member.last_allocated_block ≤ head_block_num then .error failure.block_order
  else if decayed_remain head_block_num member > 0 then
    match member.already_allocated_cash.add amount with
    | .error e => .error e
    | .ok total =>
      match total.le ⟨limit_per_memeber cfg pool head_block_num member, SCORUM_SYMBOL⟩ with
      | .error e => .error e
      | .ok false => .error failure.cash_limit
      | .ok true =>
        .ok { member with
              last_allocated_block := head_block_num
              per_n_block_remain := decayed_remain head_block_num member
              already_allocated_cash := total }
  else
    .ok { member with
          last_allocated_block := head_block_num
          per_n_block_remain := cfg.LIMIT_PER_MEMBER_N_BLOCK
          already_allocated_cash := ⟨0, SCORUM_SYMBOL⟩ }

/-- The function `registration_pool_impl::allocate_cash`; `committee_member` is the empty
name for a call without attribution. The second component is the chain state
the call leaves behind. -/
def allocate_cash (cfg : limits) (db : database) (committee_member : account_name_type) :
    Except failure asset × database :=
  match db.pool with
  | none => (.error failure.pool_missing, db)
  | some pool =>
    match calculate_per_reg_amout pool with
    | .error e => (.error e, db)
    | .ok per_reg =>
      if ¬ per_reg.amount > 0 then (.error failure.zero_bonus, db)
      else
        match decrease_balance pool per_reg with
        | (.error e, pool') => (.error e, { db with pool := some pool' })
        | (.ok per_reg', pool') =>
          if committee_member ≠ "" then
            match get_member db.members committee_member with
            | none => (.error failure.member_missing, { db with pool := some pool' })
            | some member =>
              match take_by_committee_member cfg db.head_block_number pool' member per_reg' with
              | .error e => (.error e, { db with pool := some pool' })
              | .ok m =>
                (.ok per_reg',
                  { db with
                    pool := some (service_increase_already_allocated_count pool')
                    members := update_member_info db.members committee_member m })
          else
            (.ok per_reg',
              { db with pool := some (service_increase_already_allocated_count pool') })

/-! ## `registration_pool_task` -/

/-- The context of `registration_pool_task`: the beneficiary account and the
flag `_last_result` that `set_result` writes and `last_result` reads. -/
structure registration_pool_context where
  beneficiary : account_name_type
  last_result : Bool
  deriving DecidableEq, Repr

/-- The method `registration_pool_context::set_result`. -/
def registration_pool_context.set_result (ctx : registration_pool_context) (result : Bool) :
    registration_pool_context :=
  { ctx with last_result := result }

/-- Reasons for which `registration_pool_task::on_apply` itself throws. -/
inductive task_failure
  /-- Raised by `FC_ASSERT(ctx.last_result())`. -/
  | last_result_not_set
  deriving DecidableEq, Repr

/-- What a run of `on_apply` leaves behind: the chain state, the context and the
calls of `account_service.create_vesting(beneficiary, bonus)` it made. -/
structure task_outcome where
  db : database
  ctx : registration_pool_context
  create_vesting_calls : List (account_name_type × asset)
  deriving DecidableEq, Repr

/-- The function `registration_pool_task::on_apply`. `asset bonus;` is the
default asset, zero SCORUM; `FC_CAPTURE_AND_LOG` catches every exception of the
`try` block, logs it and lets the function go on. -/
def registration_pool_task.on_apply (cfg : limits) (db : database)
    (ctx : registration_pool_context) : Except task_failure task_outcome :=
  if ¬ ctx.last_result = true then .error task_failure.last_result_not_set
  else
    let bonus : asset := ⟨0, SCORUM_SYMBOL⟩
    let after_try : asset × database × registration_pool_context :=
      match allocate_cash cfg db "" with
      | (.ok b, db') => (b, db', ctx.set_result true)
      | (.error _, db') => (bonus, db', ctx)
    if after_try.2.2.last_result = true then
      .ok { db := after_try.2.1
            ctx := after_try.2.2
            create_vesting_calls := [(after_try.2.2.beneficiary, after_try.1)] }
    else
      .ok { db := after_try.2.1
            ctx := after_try.2.2
            create_vesting_calls := [] }

/-! ## Pending payout of `database_api` -/

/-- The method `fc::uint128::high_bits`. -/
def high_bits (t : Nat) : Nat := t / 2 ^ 64 % 2 ^ 64

/-- The method `fc::uint128::low_bits`. -/
def low_bits (t : Nat) : Nat := t % 2 ^ 64

/-- The function `to256` of `database_api.cpp`, on 256 bit unsigned integers:
`u256 result(t.high_bits()); result <<= 65; result += t.low_bits();`. -/
def to256 (t : Nat) : Nat :=
  (high_bits t * 2 ^ 65 % 2 ^ 256 + low_bits t) % 2 ^ 256

/-- Conversion of a `uint64_t` to the signed 64 bit `share_type`. -/
def share_of_uint64 (x : Nat) : Int :=
  if x % 2 ^ 64 < 2 ^ 63 then ((x % 2 ^ 64 : Nat) : Int)
  else ((x % 2 ^ 64 : Nat) : Int) - ((2 ^ 64 : Nat) : Int)

/-- Selector of a reward curve, the numeric value of the enumeration. -/
abbrev curve_id := Nat

/-- The fields of `reward_fund_object` that `set_pending_payout` reads;
`recent_claims` is a 128 bit unsigned integer. -/
structure reward_fund_object where
  activity_reward_balance : asset
  recent_claims : Nat
  author_reward_curve : curve_id
  deriving DecidableEq, Repr

/-- Identifier of a comment object. -/
abbrev comment_id_type := Nat

/-- The fields of `discussion` that the payout and pruning steps of
`set_pending_payout` and the discussion queries read or write. -/
structure discussion where
  net_rshares : Int
  pending_payout_value : asset
  parent_author : account_name_type
  body : String
  id : comment_id_type := 0
  author : account_name_type := ""
  permlink : String := ""
  body_length : Nat := 0
  promoted : asset := ⟨0, SCORUM_SYMBOL⟩
  deriving DecidableEq, Repr

/-- Lines 1002-1005 of `set_pending_payout`: the local `vshares`.
`evaluate_reward_curve` is not part of the embedded sources and is a parameter;
its result is a 128 bit unsigned integer. -/
def vshares_of (evaluate_reward_curve : Nat → curve_id → Nat)
    (fund : reward_fund_object) (net_rshares : Int) : Nat :=
  if net_rshares > 0 then
    evaluate_reward_curve net_rshares.toNat fund.author_reward_curve % 2 ^ 128
  else 0

/-- Lines 1007-1009 of `set_pending_payout`: the value of `r2` after
`r2 /= total_r2`, before it is cast to 64 bits. -/
def payout_quotient (evaluate_reward_curve : Nat → curve_id → Nat)
    (fund : reward_fund_object) (net_rshares : Int) : Nat :=
  let r2 : Nat := to256 (vshares_of evaluate_reward_curve fund net_rshares)
  let r2 : Nat :=
    (((r2 : Int) * fund.activity_reward_balance.amount) % ((2 ^ 256 : Nat) : Int)).toNat
  r2 / to256 fund.recent_claims

/-- The function `database_api::set_pending_payout`, restricted to the payout
(lines 996-1012) and the pruning of the body (lines 1017-1020). -/
def set_pending_payout (evaluate_reward_curve : Nat → curve_id → Nat)
    (fund : reward_fund_object) (d : discussion) : discussion :=
  let pot := fund.activity_reward_balance
  let total_r2 := to256 fund.recent_claims
  let d1 : discussion :=
    if total_r2 > 0 then
      { d with
        pending_payout_value :=
          ⟨share_of_uint64 (payout_quotient evaluate_reward_curve fund d.net_rshares),
            pot.symbol⟩ }
    else d
  let d2 : discussion :=
    if d1.body.utf8ByteSize > 1024 * 128 then { d1 with body := "body pruned due to size" }
    else d1
  if d2.parent_author.utf8ByteSize > 0 ∧ d2.body.utf8ByteSize > 1024 * 16 then
    { d2 with body := "comment pruned due to size" }
  else d2

/-! ## Committee lookups of `database_api` -/

/-- The constant `LOOKUP_LIMIT`. -/
def LOOKUP_LIMIT : Nat := 1000

/-- The two rosters `committee::lookup_members` is instantiated for. -/
inductive committee_index
  | registration_committee_member_index
  | dev_committee_member_index
  deriving DecidableEq, Repr

/-- Reasons for which a lookup throws. -/
inductive lookup_failure
  /-- Raised by `FC_ASSERT(limit <= LOOKUP_LIMIT)`. -/
  | limit_exceeded
  deriving DecidableEq, Repr

/-- The method `database_api_impl::lookup_registration_committee_members`;
`committee::lookup_members` is not part of the embedded sources and is a
parameter. -/
def lookup_registration_committee_members
    (lookup_members : committee_index → String → Nat → List account_name_type)
    (lower_bound_name : String) (limit : Nat) : Except lookup_failure (List account_name_type) :=
  if ¬ limit ≤ LOOKUP_LIMIT then .error lookup_failure.limit_exceeded
  else .ok (lookup_members committee_index.registration_committee_member_index
    lower_bound_name limit)

/-- The method `database_api_impl::lookup_development_committee_members`. -/
def lookup_development_committee_members
    (lookup_members : committee_index → String → Nat → List account_name_type)
    (lower_bound_name : String) (limit : Nat) : Except lookup_failure (List account_name_type) :=
  if ¬ limit ≤ LOOKUP_LIMIT then .error lookup_failure.limit_exceeded
  else .ok (lookup_members committee_index.dev_committee_member_index lower_bound_name limit)

/-! ## `registration_pool_evaluator` -/

/-- The part of `authority` that `do_apply` reads: the names of the accounts in
`account_auths`. -/
structure authority where
  account_auths : List account_name_type
  deriving DecidableEq, Repr

/-- The operation `account_create_by_committee_operation`; the memo key and the
metadata are passed through to the account service and are left out. -/
structure account_create_by_committee_operation where
  creator : account_name_type
  new_account_name : account_name_type
  owner : authority
  active : authority
  posting : authority
  deriving DecidableEq, Repr

/-- Reasons for which `registration_pool_evaluator::do_apply` throws. -/
inductive evaluator_failure
  /-- Raised by `check_account_existence`. -/
  | account_missing
  /-- Raised by the assertion that reports that the registration pool is not
  initialized. -/
  | pool_not_initialized
  /-- Raised by the assertion that reports that the registration pool is
  exhausted. -/
  | pool_exhausted
  /-- Raised by the assertion that reports that the creator is not a committee
  member. -/
  | not_committee_member
  /-- A failure that `allocate_cash` raised. -/
  | allocation (e : failure)
  deriving DecidableEq, Repr

/-- The chain state `do_apply` works on: the allocator state, the names of the
existing accounts, and the calls of `create_account_with_bonus(new_account_name,
creator, ..., bonus)` made so far. -/
structure evaluator_state where
  db : database
  accounts : List account_name_type
  created_with_bonus : List (account_name_type × account_name_type × asset)
  deriving DecidableEq, Repr

/-- Modelled from the spec: `account_service_i::check_account_existence`, which
fails when a named account does not exist and changes nothing. -/
def check_account_existence (accounts : List account_name_type)
    (names : List account_name_type) : Bool :=
  names.all (fun n => decide (n ∈ accounts))

/-- The function `registration_pool_evaluator::do_apply`; the second component
is the chain state the call leaves behind. -/
def registration_pool_evaluator.do_apply (cfg : limits) (st : evaluator_state)
    (o : account_create_by_committee_operation) :
    Except evaluator_failure Unit × evaluator_state :=
  if ¬ check_account_existence st.accounts [o.creator] = true then
    (.error evaluator_failure.account_missing, st)
  else if ¬ check_account_existence st.accounts o.owner.account_auths = true then
    (.error evaluator_failure.account_missing, st)
  else if ¬ check_account_existence st.accounts o.active.account_auths = true then
    (.error evaluator_failure.account_missing, st)
  else if ¬ check_account_existence st.accounts o.posting.account_auths = true then
    (.error evaluator_failure.account_missing, st)
  else
    match st.db.pool with
    | none => (.error evaluator_failure.pool_not_initialized, st)
    | some pool =>
      if ¬ pool.balance.amount > 0 then (.error evaluator_failure.pool_exhausted, st)
      else if (get_member st.db.members o.creator).isNone = true then
        (.error evaluator_failure.not_committee_member, st)
      else
        match allocate_cash cfg st.db o.creator with
        | (.error e, db') => (.error (evaluator_failure.allocation e), { st with db := db' })
        | (.ok bonus, db') =>
          (.ok (),
            { db := db'
              accounts := o.new_account_name :: st.accounts
              created_with_bonus :=
                (o.new_account_name, o.creator, bonus) :: st.created_with_bonus })

/-! ## Discussion queries of `database_api` -/

/-- The fields of `comment_object` that the discussion queries read. -/
structure comment_object where
  id : comment_id_type
  author : account_name_type
  permlink : String
  parent_author : account_name_type
  net_rshares : Int
  body : String
  deriving DecidableEq, Repr

/-- The fields of `tags::tag_object` that `get_discussions` reads. -/
structure tag_object where
  id : Nat
  tag : String
  parent : comment_id_type
  comment : comment_id_type
  promoted_balance : Int
  deriving DecidableEq, Repr

/-- The fields of `discussion_query` that the embedded queries read. -/
structure discussion_query where
  tag : String
  limit : Nat
  truncate_body : Nat
  start_author : Option String
  start_permlink : Option String
  parent_author : Option String
  parent_permlink : Option String
  deriving DecidableEq, Repr

/-- Reasons for which a discussion query throws. -/
inductive api_failure
  /-- Raised when a comment is looked up that does not exist. -/
  | comment_missing
  /-- Raised by `query.validate()`. -/
  | invalid_query
  deriving DecidableEq, Repr

/-- The chain state and the declarations, not part of the embedded sources,
that the discussion queries use: the comments, the tag index in the order of
`by_comment` and of `by_parent_trending`, the reward fund, and the functions
`evaluate_reward_curve`, `fc::prune_invalid_utf8` (applied to the first bytes of
a body that were cut inside a character), `discussion_query::validate`,
`fc::to_lower` and the default arguments of `get_discussions`. -/
structure database_api_state where
  comments : List comment_object
  by_comment : List tag_object
  by_parent_trending : List tag_object
  reward_fund : reward_fund_object
  evaluate_reward_curve : Nat → curve_id → Nat
  prune_invalid_utf8 : String → Nat → String
  validate : discussion_query → Bool
  to_lower : String → String
  exit_default : discussion → Bool
  tag_exit_default : tag_object → Bool
  ignore_parent_default : Bool

/-- Modelled from the spec: the `discussion` built from a comment object, whose
pending payout starts at zero. -/
def discussion_of_comment (c : comment_object) : discussion :=
  { net_rshares := c.net_rshares
    pending_payout_value := ⟨0, SCORUM_SYMBOL⟩
    parent_author := c.parent_author
    body := c.body
    id := c.id
    author := c.author
    permlink := c.permlink }

/-- The characters of `body.substr(0, n)` for a count `n` of bytes, when the cut
falls between two characters so that the result is valid UTF-8; `none` when the
cut falls inside a character. -/
def substr_utf8 : List Char → Nat → Option (List Char)
  | _, 0 => some []
  | [], _ => some []
  | c :: cs, n =>
    if c.utf8Size ≤ n then (substr_utf8 cs (n - c.utf8Size)).map (fun r => c :: r)
    else none

/-- The function `database_api::get_discussion`; `set_url` and `active_votes`
write fields that are left out. -/
def get_discussion (st : database_api_state) (id : comment_id_type) (truncate_body : Nat) :
    Except api_failure discussion :=
  match st.comments.find? (fun c => decide (c.id = id)) with
  | none => .error api_failure.comment_missing
  | some c =>
    let d := set_pending_payout st.evaluate_reward_curve st.reward_fund (discussion_of_comment c)
    let d := { d with body_length := d.body.utf8ByteSize }
    if truncate_body ≠ 0 then
      match substr_utf8 d.body.data truncate_body with
      | some cs => .ok { d with body := String.mk cs }
      | none => .ok { d with body := st.prune_invalid_utf8 d.body truncate_body }
    else .ok d

/-- Modelled from the spec: `dbs_comment::get(author, permlink)`, which fails
when there is no such comment. -/
def comment_service_get (comments : List comment_object) (author permlink : String) :
    Except api_failure comment_object :=
  match comments.find? (fun c => decide (c.author = author ∧ c.permlink = permlink)) with
  | none => .error api_failure.comment_missing
  | some c => .ok c

/-- Lines 1286-1297 of `get_discussions`: `cidx.find(start)` followed by the
scan of the entries of the comment `start` for the queried tag. -/
def start_entry (cidx : List tag_object) (start : comment_id_type) (tag : String) :
    Option tag_object :=
  ((cidx.dropWhile (fun t => decide (t.comment ≠ start))).takeWhile
    (fun t => decide (t.comment = start))).find? (fun t => decide (t.tag = tag))

/-- The position `tidx.iterator_to(*itr)` of a tag object in the index. -/
def iterator_to (tidx : List tag_object) (t : tag_object) : Nat :=
  tidx.indexOf t

/-- The loop of `get_discussions` (lines 1306-1341) over the entries from
`tidx_itr` on, with the locals `count` and `itr_count`; the result lists the
discussions in the order they were pushed. -/
def get_discussions_loop (st : database_api_state) (tag : String) (parent : comment_id_type)
    (truncate_body : Nat) (filter : discussion → Bool) (exit : discussion → Bool)
    (tag_exit : tag_object → Bool) (ignore_parent : Bool) (max_itr_count : Nat) :
    List tag_object → Nat → Nat → List discussion
  | [], _, _ => []
  | t :: rest, count, itr_count =>
    if ¬ count > 0 then []
    else if itr_count + 1 > max_itr_count then []
    else if t.tag ≠ tag ∨ (ignore_parent = false ∧ t.parent ≠ parent) then []
    else
      match get_discussion st t.comment truncate_body with
      | .error _ =>
        get_discussions_loop st tag parent truncate_body filter exit tag_exit ignore_parent
          max_itr_count rest count (itr_count + 1)
      | .ok d =>
        let back : discussion := { d with promoted := ⟨t.promoted_balance, SCORUM_SYMBOL⟩ }
        if filter back = true then
          get_discussions_loop st tag parent truncate_body filter exit tag_exit ignore_parent
            max_itr_count rest count (itr_count + 1)
        else if exit back = true ∨ tag_exit t = true then []
        else
          back :: get_discussions_loop st tag parent truncate_body filter exit tag_exit
            ignore_parent max_itr_count rest (count - 1) (itr_count + 1)

/-- The function `database_api::get_discussions`; `tidx` is the index in its
order and `tidx_itr` the position the caller starts from. `10 * query.limit` is
a 32 bit product. -/
def get_discussions (st : database_api_state) (query : discussion_query) (tag : String)
    (parent : comment_id_type) (tidx : List tag_object) (tidx_itr : Nat) (truncate_body : Nat)
    (filter : discussion → Bool) (exit : discussion → Bool) (tag_exit : tag_object → Bool)
    (ignore_parent : Bool) : Except api_failure (List discussion) :=
  let start_itr : Except api_failure Nat :=
    match query.start_author, query.start_permlink with
    | some author, some permlink =>
      match comment_service_get st.comments author permlink with
      | .error e => .error e
      | .ok c =>
        match start_entry st.by_comment c.id tag with
        | some t => .ok (iterator_to tidx t)
        | none => .ok tidx_itr
    | _, _ => .ok tidx_itr
  match start_itr with
  | .error e => .error e
  | .ok itr =>
    .ok (get_discussions_loop st tag parent truncate_body filter exit tag_exit ignore_parent
      (10 * query.limit % 2 ^ 32) (tidx.drop itr) query.limit 0)

/-- The function `database_api::get_parent`. -/
def get_parent (st : database_api_state) (query : discussion_query) :
    Except api_failure comment_id_type :=
  match query.parent_author, query.parent_permlink with
  | some author, some permlink =>
    match comment_service_get st.comments author permlink with
    | .error e => .error e
    | .ok c => .ok c.id
  | _, _ => .ok 0

/-- The position `tidx.lower_bound(make_tuple(tag, parent, max))` in the index
`by_parent_trending`, which is ordered by tag, then parent, then falling
trending value. -/
def lower_bound_tag_parent (tidx : List tag_object) (tag : String) (parent : comment_id_type) :
    Nat :=
  (tidx.takeWhile
    (fun t => decide (t.tag.data < tag.data ∨ (t.tag = tag ∧ t.parent < parent)))).length

/-- The function `database_api::get_discussions_by_trending`. -/
def get_discussions_by_trending (st : database_api_state) (query : discussion_query) :
    Except api_failure (List discussion) :=
  if ¬ st.validate query = true then .error api_failure.invalid_query
  else
    let tag := st.to_lower query.tag
    match get_parent st query with
    | .error e => .error e
    | .ok parent =>
      get_discussions st query tag parent st.by_parent_trending
        (lower_bound_tag_parent st.by_parent_trending tag parent) query.truncate_body
        (fun c => decide (c.net_rshares ≤ 0)) st.exit_default st.tag_exit_default
        st.ignore_parent_default

/-! ## Vocabulary of the properties -/

/-- The cumulative threshold `users_0 + ... + users_(k-1)` of the first `k`
tiers of a schedule, as the specification words it. -/
def cumulative_users (schedule_items : List schedule_item) (k : Nat) : Nat :=
  ((schedule_items.take k).map schedule_item.users).sum

/-- The grant of a call that passes the checks on schedule, bonus and balance. -/
def granted (pool : registration_pool_object) (per_reg : asset) : asset :=
  ⟨min per_reg.amount pool.balance.amount, pool.balance.symbol⟩

/-- The pool object after the balance was decreased by the grant. -/
def drained (pool : registration_pool_object) (per_reg : asset) : registration_pool_object :=
  { pool with
    balance := ⟨pool.balance.amount - min per_reg.amount pool.balance.amount,
      pool.balance.symbol⟩ }

/-- Blocks elapsed since the last allocation of a member, where a member that
was never allocated to counts as allocated to in the head block. -/
def elapsed_blocks (head_block_num : Nat) (member : registration_committee_member_object) :
    Nat :=
  if member.last_allocated_block = 0 then 0
  else head_block_num - member.last_allocated_block

/-- The rate limit rule for an attributed call, for a given count of elapsed
blocks: with `remain = max (per_n_block_remain - elapsed) 0`, if `remain > 0`
the call fails with the cash limit error exactly when
`already_allocated_cash + grant` exceeds
`(elapsed + 1) * maximum_bonus * LIMIT_PER_MEMBER_PER_N_BLOCK / LIMIT_PER_MEMBER_N_BLOCK`,
and if `remain = 0` it does not fail with that error. -/
def rate_limit_rule (elapsed : Nat) (cfg : limits) (db : database) (name : account_name_type)
    (pool : registration_pool_object) (member : registration_committee_member_object)
    (grant : Int) : Prop :=
  (0 < member.per_n_block_remain - elapsed →
    ((allocate_cash cfg db name).1 = .error failure.cash_limit ↔
      member.already_allocated_cash.amount + grant >
        Int.tdiv (((elapsed + 1 : Nat) : Int) * pool.maximum_bonus.amount
          * (cfg.LIMIT_PER_MEMBER_PER_N_BLOCK : Int)) (cfg.LIMIT_PER_MEMBER_N_BLOCK : Int))) ∧
  (member.per_n_block_remain - elapsed = 0 →
    (allocate_cash cfg db name).1 ≠ .error failure.cash_limit)

/-- A run of attributed allocations inside one window of a member: every call
`(head_block_num, amount)` is made with positive decayed allowance (so that it
does not reset the window) and succeeds. The result is the record after the last
call. Only `maximum_bonus` of the pool is read. -/
def window_calls (cfg : limits) (pool : registration_pool_object) :
    registration_committee_member_object → List (Nat × asset) →
      Option registration_committee_member_object
  | m, [] => some m
  | m, (head_block_num, amount) :: rest =>
    if decayed_remain head_block_num m > 0 then
      match take_by_committee_member cfg head_block_num pool m amount with
      | .ok m' => window_calls cfg pool m' rest
      | .error _ => none
    else none

/-- The cash granted by a list of calls. -/
def granted_sum (calls : List (Nat × asset)) : Int :=
  (calls.map (fun c => c.2.amount)).sum

/-- The cap on the cash of one window as C13 states it: when the call
`(head_block_num, amount)` opens a window by resetting it and `calls` are the
further successful calls of that window, the cash granted by all of them, the
opening call included, is at most `maximum_bonus * LIMIT_PER_MEMBER_PER_N_BLOCK`. -/
def window_cap_stated (cfg : limits) (pool : registration_pool_object)
    (member : registration_committee_member_object) (head_block_num : Nat) (amount : asset)
    (calls : List (Nat × asset)) : Prop :=
  decayed_remain head_block_num member = 0 →
    ∀ m0 mk, take_by_committee_member cfg head_block_num pool member amount = .ok m0 →
      window_calls cfg pool m0 calls = some mk →
      amount.amount + granted_sum calls
        ≤ pool.maximum_bonus.amount * (cfg.LIMIT_PER_MEMBER_PER_N_BLOCK : Int)

/-- The payout as C15 states it: for `recent_claims > 0` and `net_rshares > 0`
the pending payout is `floor (pot.amount * vshares / recent_claims)` in the
symbol of the pot, where `vshares` is the value of the reward curve. -/
def payout_exact_stated (evaluate_reward_curve : Nat → curve_id → Nat)
    (fund : reward_fund_object) (d : discussion) : Prop :=
  0 < fund.recent_claims → 0 < d.net_rshares →
    (set_pending_payout evaluate_reward_curve fund d).pending_payout_value
      = ⟨fund.activity_reward_balance.amount
            * (evaluate_reward_curve d.net_rshares.toNat fund.author_reward_curve : Int)
          / (fund.recent_claims : Int),
        fund.activity_reward_balance.symbol⟩

/-- The pending payout amount that `set_pending_payout` leaves for a content
with the given `net_rshares`. -/
def pending_payout_amount (evaluate_reward_curve : Nat → curve_id → Nat)
    (fund : reward_fund_object) (d : discussion) (net_rshares : Int) : Int :=
  (set_pending_payout evaluate_reward_curve fund
    { d with net_rshares := net_rshares }).pending_payout_value.amount

/-- The discussions of a query result, none when the query failed. -/
def results_of (r : Except api_failure (List discussion)) : List discussion :=
  match r with
  | .ok l => l
  | .error _ => []

/-- The record of a committee member after a successful attributed allocation
as C8 states it, for a given count of elapsed blocks: with
`remain = max (per_n_block_remain - elapsed) 0`, the stored record has
`last_allocated_block` equal to the head block number; if `remain > 0` it has
`per_n_block_remain = remain` and `already_allocated_cash` increased by the
grant, otherwise `per_n_block_remain = LIMIT_PER_MEMBER_N_BLOCK` and
`already_allocated_cash = 0`. -/
def member_record_rule (elapsed : Nat) (cfg : limits) (db : database)
    (name : account_name_type) (member : registration_committee_member_object) (g : asset)
    (db' : database) : Prop :=
  ∃ m, get_member db'.members name = some m ∧
    m.last_allocated_block = db.head_block_number ∧
    (0 < member.per_n_block_remain - elapsed →
      m.per_n_block_remain = member.per_n_block_remain - elapsed ∧
        m.already_allocated_cash.amount = member.already_allocated_cash.amount + g.amount) ∧
    (member.per_n_block_remain - elapsed = 0 →
      m.per_n_block_remain = cfg.LIMIT_PER_MEMBER_N_BLOCK ∧
        m.already_allocated_cash = ⟨0, SCORUM_SYMBOL⟩)

/-! ## Concrete states used for evaluation -/

/-- A pool with balance 1000, maximum bonus 100 and one tier `(1, 50)`. -/
def pool_example : registration_pool_object :=
  { balance := ⟨1000, SCORUM_SYMBOL⟩
    maximum_bonus := ⟨100, SCORUM_SYMBOL⟩
    already_allocated_count := 0
    schedule_items := [⟨1, 50⟩] }

/-- A pool whose balance, 30, is below the bonus of its tier, 50. -/
def pool_low : registration_pool_object :=
  { balance := ⟨30, SCORUM_SYMBOL⟩
    maximum_bonus := ⟨100, SCORUM_SYMBOL⟩
    already_allocated_count := 3
    schedule_items := [⟨2, 80⟩, ⟨5, 50⟩] }

/-- A pool with balance 1000 whose tier pays the whole maximum bonus 100. -/
def pool_full : registration_pool_object :=
  { balance := ⟨1000, SCORUM_SYMBOL⟩
    maximum_bonus := ⟨100, SCORUM_SYMBOL⟩
    already_allocated_count := 0
    schedule_items := [⟨1000, 100⟩] }

/-- The linear reward curve, whatever the selector. -/
def linear_curve : Nat → curve_id → Nat := fun rshares _ => rshares

/-- A reward fund with a pot of `2 ^ 62` and a single recent claim. -/
def fund_large : reward_fund_object :=
  { activity_reward_balance := ⟨2 ^ 62, SCORUM_SYMBOL⟩
    recent_claims := 1
    author_reward_curve := 0 }

/-- A reward fund with a pot of 1000 and 400 recent claims. -/
def fund_example : reward_fund_object :=
  { activity_reward_balance := ⟨1000, SCORUM_SYMBOL⟩
    recent_claims := 400
    author_reward_curve := 0 }

/-- A reward fund without recent claims. -/
def fund_unclaimed : reward_fund_object :=
  { activity_reward_balance := ⟨1000, SCORUM_SYMBOL⟩
    recent_claims := 0
    author_reward_curve := 0 }

/-- A root post with 30 net rshares that carries a pending payout of 7. -/
def discussion_example : discussion :=
  { net_rshares := 30
    pending_payout_value := ⟨7, SCORUM_SYMBOL⟩
    parent_author := ""
    body := "text" }

/-- A state whose pool has no schedule. -/
def db_unscheduled : database :=
  { pool := some { pool_example with schedule_items := [] }
    members := []
    head_block_number := 9 }

/-- A three tier schedule with thresholds 2, 5 and 9. -/
def schedule_example : List schedule_item := [⟨2, 80⟩, ⟨3, 50⟩, ⟨4, 20⟩]

/-- Rate limit constants: one maximum bonus per window of ten blocks. -/
def limits_example : limits := ⟨1, 10⟩

/-- A member that was never allocated to. -/
def alice : registration_committee_member_object :=
  { account := "alice"
    last_allocated_block := 0
    per_n_block_remain := 10
    already_allocated_cash := ⟨0, SCORUM_SYMBOL⟩ }

/-- A member that was allocated to in block 4. -/
def bob : registration_committee_member_object :=
  { account := "bob"
    last_allocated_block := 4
    per_n_block_remain := 10
    already_allocated_cash := ⟨0, SCORUM_SYMBOL⟩ }

/-- A member whose window ran out: the last allocation was in block 1 and two
blocks of allowance were left. -/
def carol : registration_committee_member_object :=
  { account := "carol"
    last_allocated_block := 1
    per_n_block_remain := 2
    already_allocated_cash := ⟨70, SCORUM_SYMBOL⟩ }

/-- A state at head block 9 with the pool `pool_example`. -/
def db_example : database :=
  { pool := some pool_example
    members := [alice, bob, carol]
    head_block_number := 9 }

/-- A state at head block 9 with the nearly drained pool `pool_low`. -/
def db_low : database :=
  { pool := some pool_low
    members := [alice, bob, carol]
    head_block_number := 9 }

/-- An operation by which `bob` creates the account `erin`. -/
def operation_example : account_create_by_committee_operation :=
  { creator := "bob"
    new_account_name := "erin"
    owner := ⟨[]⟩
    active := ⟨[]⟩
    posting := ⟨[]⟩ }

/-- A chain state with the accounts of the three committee members and a pool
whose balance is used up. -/
def evaluator_state_exhausted : evaluator_state :=
  { db := { db_example with pool := some { pool_example with balance := ⟨0, SCORUM_SYMBOL⟩ } }
    accounts := ["alice", "bob", "carol"]
    created_with_bonus := [] }

/-- Four root posts; the second one has received no votes. -/
def comments_example : List comment_object :=
  [ { id := 1, author := "alice", permlink := "pl1", parent_author := "",
      net_rshares := 10, body := "body1" },
    { id := 2, author := "bob", permlink := "pl2", parent_author := "",
      net_rshares := 0, body := "body2" },
    { id := 3, author := "alice", permlink := "pl3", parent_author := "",
      net_rshares := 30, body := "1234567890" },
    { id := 4, author := "bob", permlink := "pl4", parent_author := "",
      net_rshares := 20, body := "body4" } ]

/-- The tag entries of the four posts in the order of `by_parent_trending`: the
tag `c` with falling trending value, then the tag `d`. -/
def tags_by_trending : List tag_object :=
  [ { id := 1, tag := "c", parent := 0, comment := 3, promoted_balance := 0 },
    { id := 2, tag := "c", parent := 0, comment := 4, promoted_balance := 0 },
    { id := 3, tag := "c", parent := 0, comment := 1, promoted_balance := 0 },
    { id := 4, tag := "c", parent := 0, comment := 2, promoted_balance := 0 },
    { id := 5, tag := "d", parent := 0, comment := 2, promoted_balance := 0 } ]

/-- The same tag entries in the order of `by_comment`. -/
def tags_by_comment : List tag_object :=
  [ { id := 3, tag := "c", parent := 0, comment := 1, promoted_balance := 0 },
    { id := 4, tag := "c", parent := 0, comment := 2, promoted_balance := 0 },
    { id := 5, tag := "d", parent := 0, comment := 2, promoted_balance := 0 },
    { id := 1, tag := "c", parent := 0, comment := 3, promoted_balance := 0 },
    { id := 2, tag := "c", parent := 0, comment := 4, promoted_balance := 0 } ]

/-- A state of the query layer over the four posts. -/
def api_state_example : database_api_state :=
  { comments := comments_example
    by_comment := tags_by_comment
    by_parent_trending := tags_by_trending
    reward_fund := fund_example
    evaluate_reward_curve := linear_curve
    prune_invalid_utf8 := fun body _ => body
    validate := fun q => decide (q.limit ≤ 100)
    to_lower := fun tag => String.mk (tag.data.map Char.toLower)
    exit_default := fun _ => false
    tag_exit_default := fun _ => false
    ignore_parent_default := false }

/-- A query for the tag `C` with pages of two discussions and bodies cut to five
bytes. -/
def query_example : discussion_query :=
  { tag := "C"
    limit := 2
    truncate_body := 5
    start_author := none
    start_permlink := none
    parent_author := none
    parent_permlink := none }

/-- A body of 131073 bytes, one byte more than `1024 * 128`. -/
def long_body : String := String.mk (List.replicate 131073 'a')

/-- A body of 16385 bytes, one byte more than `1024 * 16`. -/
def reply_body : String := String.mk (List.replicate 16385 'a')

/-- A state of the query layer with a root post of body `long_body` and a reply
to it of body `reply_body`. -/
def api_state_long : database_api_state :=
  { api_state_example with
    comments := [ { id := 9, author := "alice", permlink := "long", parent_author := "",
                    net_rshares := 10, body := long_body },
                  { id := 10, author := "bob", permlink := "re-long", parent_author := "alice",
                    net_rshares := 10, body := reply_body } ] }

/-- A pool whose only tier pays 5 percent of the maximum bonus 100. -/
def pool_small : registration_pool_object :=
  { balance := ⟨1000, SCORUM_SYMBOL⟩
    maximum_bonus := ⟨100, SCORUM_SYMBOL⟩
    already_allocated_count := 0
    schedule_items := [⟨1, 5⟩] }

/-- A state at head block 9 with the pool `pool_small`. -/
def db_small : database :=
  { pool := some pool_small
    members := [alice, bob, carol]
    head_block_number := 9 }

/-! ## The schedule walk -/

theorem cumulative_users_zero (items : List schedule_item) : cumulative_users items 0 = 0 := by
  simp [cumulative_users]

theorem cumulative_users_cons (it : schedule_item) (rest : List schedule_item) (k : Nat) :
    cumulative_users (it :: rest) (k + 1) = it.users + cumulative_users rest k := by
  simp [cumulative_users]

theorem cumulative_users_mono (items : List schedule_item) :
    ∀ j k : Nat, j ≤ k → cumulative_users items j ≤ cumulative_users items k := by
  induction items with
  | nil => intro j k _; simp [cumulative_users]
  | cons it rest ih =>
    intro j k hjk
    cases j with
    | zero => rw [cumulative_users_zero]; exact Nat.zero_le _
    | succ j =>
      cases k with
      | zero => omega
      | succ k =>
        rw [cumulative_users_cons, cumulative_users_cons]
        have := ih j k (by omega)
        omega

theorem find_position_le (items : List schedule_item) :
    ∀ n : Nat, find_position items n ≤ items.length := by
  induction items with
  | nil => intro n; simp [find_position]
  | cons it rest ih =>
    intro n
    by_cases h : n ≥ it.users
    · have := ih (n - it.users)
      simp only [find_position, h, if_true, List.length_cons]
      omega
    · simp [find_position, h]

theorem find_position_spec (items : List schedule_item) :
    ∀ n : Nat, cumulative_users items (find_position items n) ≤ n ∧
      (find_position items n < items.length →
        n < cumulative_users items (find_position items n + 1)) := by
  induction items with
  | nil => intro n; simp [find_position, cumulative_users]
  | cons it rest ih =>
    intro n
    by_cases h : n ≥ it.users
    · obtain ⟨h1, h2⟩ := ih (n - it.users)
      simp only [find_position, h, if_true, List.length_cons]
      rw [Nat.add_comm 1 (find_position rest (n - it.users)), cumulative_users_cons,
        cumulative_users_cons]
      constructor
      · omega
      · intro hlt
        have := h2 (by omega)
        omega
    · simp only [find_position, h, if_false, cumulative_users_zero, cumulative_users_cons]
      constructor
      · omega
      · intro _; omega

theorem find_position_mono (items : List schedule_item) :
    ∀ n m : Nat, n ≤ m → find_position items n ≤ find_position items m := by
  induction items with
  | nil => intro n m _; simp [find_position]
  | cons it rest ih =>
    intro n m hnm
    by_cases h : n ≥ it.users
    · have hm : m ≥ it.users := by omega
      have := ih (n - it.users) (m - it.users) (by omega)
      simp only [find_position, h, hm, if_true]
      omega
    · simp [find_position, h]

theorem tier_index_lt (items : List schedule_item) (n : Nat) (h : items ≠ []) :
    tier_index items n < items.length := by
  have hlen : 0 < items.length := List.length_pos.mpr h
  have hle := find_position_le items n
  unfold tier_index
  simp only
  split <;> omega

theorem calculate_per_reg_amout_eq (pool : registration_pool_object)
    (h : pool.schedule_items ≠ []) :
    ∃ tier, pool.schedule_items[tier_index pool.schedule_items pool.already_allocated_count]?
        = some tier ∧
      calculate_per_reg_amout pool =
        .ok ⟨Int.tdiv ((tier.bonus_percent : Int) * pool.maximum_bonus.amount) 100,
          SCORUM_SYMBOL⟩ := by
  have hlt := tier_index_lt pool.schedule_items pool.already_allocated_count h
  refine ⟨pool.schedule_items[tier_index pool.schedule_items pool.already_allocated_count],
    List.getElem?_eq_getElem hlt, ?_⟩
  unfold calculate_per_reg_amout
  have hne : pool.schedule_items.isEmpty = false := by
    cases hs : pool.schedule_items with
    | nil => exact absurd hs h
    | cons a l => rfl
  simp [hne, List.getElem?_eq_getElem hlt]

/-! ## Balance clamping -/

theorem decrease_balance_success (pool : registration_pool_object) (balance : asset)
    (hb : balance.amount > 0) (hp : pool.balance.amount > 0)
    (hs : balance.symbol = pool.balance.symbol) :
    decrease_balance pool balance =
      (.ok ⟨min balance.amount pool.balance.amount, pool.balance.symbol⟩,
        { pool with
          balance := ⟨pool.balance.amount - min balance.amount pool.balance.amount,
            pool.balance.symbol⟩ }) := by
  unfold decrease_balance
  simp only [hb, hp, not_true_eq_false, if_false, if_true, asset.le, hs]
  by_cases hle : balance.amount ≤ pool.balance.amount
  · have hmin : min balance.amount pool.balance.amount = balance.amount := min_eq_left hle
    simp only [hle, decide_True, service_decrease_balance, asset.sub, hs, if_true, hmin]
    cases balance
    simp_all
  · have hmin : min balance.amount pool.balance.amount = pool.balance.amount :=
      min_eq_right (by omega)
    simp only [hle, decide_False, service_decrease_balance, asset.sub, if_true, hmin,
      hp, not_true_eq_false, if_false]

theorem decrease_balance_failure (pool : registration_pool_object) (balance : asset)
    (h : ¬ (balance.amount > 0 ∧ pool.balance.amount > 0 ∧
      balance.symbol = pool.balance.symbol)) :
    ∃ e pool', decrease_balance pool balance = (.error e, pool') := by
  unfold decrease_balance
  by_cases hb : balance.amount > 0
  · by_cases hp : pool.balance.amount > 0
    · have hs : ¬ balance.symbol = pool.balance.symbol := fun hs => h ⟨hb, hp, hs⟩
      simp [hb, hp, asset.le, hs]
    · simp [hb, hp, service_decrease_balance, asset.sub]
  · simp [hb]

/-! ## The shape of `allocate_cash` -/

theorem calculate_per_reg_amout_symbol (pool : registration_pool_object) (r : asset)
    (h : calculate_per_reg_amout pool = .ok r) : r.symbol = SCORUM_SYMBOL := by
  unfold calculate_per_reg_amout at h
  split at h
  · cases h
  · split at h
    · cases h
    · cases h; rfl

theorem allocate_cash_after_grant (cfg : limits) (db : database) (name : account_name_type)
    (pool : registration_pool_object) (per_reg : asset)
    (hpool : db.pool = some pool) (hper : calculate_per_reg_amout pool = .ok per_reg)
    (hpos : per_reg.amount > 0) (hbal : pool.balance.amount > 0)
    (hsym : pool.balance.symbol = SCORUM_SYMBOL) :
    allocate_cash cfg db name =
      if name ≠ "" then
        match get_member db.members name with
        | none => (.error failure.member_missing, { db with pool := some (drained pool per_reg) })
        | some member =>
          match take_by_committee_member cfg db.head_block_number (drained pool per_reg) member
              (granted pool per_reg) with
          | .error e => (.error e, { db with pool := some (drained pool per_reg) })
          | .ok m =>
            (.ok (granted pool per_reg),
              { db with
                pool := some (service_increase_already_allocated_count (drained pool per_reg))
                members := update_member_info db.members name m })
      else
        (.ok (granted pool per_reg),
          { db with
            pool := some (service_increase_already_allocated_count (drained pool per_reg)) }) := by
  have hs : per_reg.symbol = pool.balance.symbol := by
    rw [calculate_per_reg_amout_symbol pool per_reg hper, hsym]
  unfold allocate_cash
  simp only [hpool, hper, hpos, not_true_eq_false, if_false,
    decrease_balance_success pool per_reg hpos hbal hs]
  rfl

theorem allocate_cash_success_inv (cfg : limits) (db : database) (name : account_name_type)
    (pool : registration_pool_object) (g : asset) (db' : database)
    (hpool : db.pool = some pool) (hok : allocate_cash cfg db name = (.ok g, db')) :
    ∃ per_reg, calculate_per_reg_amout pool = .ok per_reg ∧ per_reg.amount > 0 ∧
      pool.balance.amount > 0 ∧ pool.balance.symbol = SCORUM_SYMBOL := by
  unfold allocate_cash at hok
  simp only [hpool] at hok
  cases hper : calculate_per_reg_amout pool with
  | error e => simp [hper] at hok
  | ok per_reg =>
    simp only [hper] at hok
    by_cases hpos : per_reg.amount > 0
    · by_cases hc : per_reg.amount > 0 ∧ pool.balance.amount > 0 ∧
          per_reg.symbol = pool.balance.symbol
      · refine ⟨per_reg, rfl, hpos, hc.2.1, ?_⟩
        rw [← hc.2.2, calculate_per_reg_amout_symbol pool per_reg hper]
      · obtain ⟨e, pool', hfail⟩ := decrease_balance_failure pool per_reg hc
        simp [hpos, hfail] at hok
    · simp [hpos] at hok

theorem allocate_cash_failure_members (cfg : limits) (db : database) (name : account_name_type)
    (e : failure) (db' : database) (h : allocate_cash cfg db name = (.error e, db')) :
    db'.members = db.members ∧ db'.head_block_number = db.head_block_number := by
  unfold allocate_cash at h
  repeat' split at h
  all_goals first
    | (cases h; exact ⟨rfl, rfl⟩)
    | (simp only [Prod.mk.injEq] at h; obtain ⟨h1, h2⟩ := h; cases h1)

theorem u32_sub_eq (a b : Nat) (ha : a < 2 ^ 32) (hb : b ≤ a) : u32_sub a b = a - b := by
  unfold u32_sub
  omega

theorem pass_blocks_eq (head_block_num : Nat) (member : registration_committee_member_object)
    (hh : head_block_num < 2 ^ 32) (hl : member.last_allocated_block ≤ head_block_num) :
    pass_blocks head_block_num member =
      if member.last_allocated_block = 0 then 0
      else head_block_num - member.last_allocated_block := by
  unfold pass_blocks
  by_cases h0 : member.last_allocated_block = 0
  · simp only [h0, if_true]
    rw [u32_sub_eq _ _ hh (Nat.le_refl _)]
    omega
  · simp only [h0, if_false]
    exact u32_sub_eq _ _ hh hl

theorem decayed_remain_eq (head_block_num : Nat) (member : registration_committee_member_object)
    (hr : member.per_n_block_remain < 2 ^ 32) :
    decayed_remain head_block_num member =
      member.per_n_block_remain - pass_blocks head_block_num member := by
  unfold decayed_remain
  by_cases h : pass_blocks head_block_num member > member.per_n_block_remain
  · simp only [h, if_true]
    omega
  · simp only [h, if_false]
    exact u32_sub_eq _ _ hr (by omega)

theorem take_by_committee_member_eq (cfg : limits) (head_block_num : Nat)
    (pool : registration_pool_object) (member : registration_committee_member_object)
    (amount : asset) (hl : member.last_allocated_block ≤ head_block_num)
    (hs : member.already_allocated_cash.symbol = SCORUM_SYMBOL)
    (ha : amount.symbol = SCORUM_SYMBOL) :
    take_by_committee_member cfg head_block_num pool member amount =
      if decayed_remain head_block_num member > 0 then
        if member.already_allocated_cash.amount + amount.amount
            ≤ limit_per_memeber cfg pool head_block_num member then
          .ok { member with
                last_allocated_block := head_block_num
                per_n_block_remain := decayed_remain head_block_num member
                already_allocated_cash :=
                  ⟨member.already_allocated_cash.amount + amount.amount, SCORUM_SYMBOL⟩ }
        else .error failure.cash_limit
      else
        .ok { member with
              last_allocated_block := head_block_num
              per_n_block_remain := cfg.LIMIT_PER_MEMBER_N_BLOCK
              already_allocated_cash := ⟨0, SCORUM_SYMBOL⟩ } := by
  unfold take_by_committee_member
  simp only [hl, not_true_eq_false, if_false, asset.add, asset.le, hs, ha, if_true]
  by_cases hd : decayed_remain head_block_num member > 0
  · simp only [hd, if_true]
    by_cases hc : member.already_allocated_cash.amount + amount.amount
        ≤ limit_per_memeber cfg pool head_block_num member
    · simp [hc]
    · simp [hc]
  · simp only [hd, if_false]

theorem get_member_account (members : List registration_committee_member_object)
    (name : account_name_type) (member : registration_committee_member_object)
    (h : get_member members name = some member) : member.account = name := by
  unfold get_member at h
  have := List.find?_some h
  simpa using this

theorem get_member_update (members : List registration_committee_member_object)
    (name : account_name_type) (member m : registration_committee_member_object)
    (h : get_member members name = some member) (hm : m.account = name) :
    get_member (update_member_info members name m) name = some m := by
  induction members with
  | nil => simp [get_member] at h
  | cons a l ih =>
    by_cases ha : a.account = name
    · simp [update_member_info, ha, get_member, hm]
    · have h' : get_member l name = some member := by
        simpa [get_member, ha] using h
      have := ih h'
      simp only [update_member_info, ha, if_false]
      simpa [get_member, ha] using this

theorem take_by_committee_member_account (cfg : limits) (head_block_num : Nat)
    (pool : registration_pool_object) (member m : registration_committee_member_object)
    (amount : asset)
    (h : take_by_committee_member cfg head_block_num pool member amount = .ok m) :
    m.account = member.account := by
  unfold take_by_committee_member at h
  repeat' split at h
  all_goals first
    | (cases h; rfl)
    | cases h

theorem allocate_cash_success_state (cfg : limits) (db : database) (name : account_name_type)
    (pool : registration_pool_object) (g : asset) (db' : database)
    (hpool : db.pool = some pool) (hok : allocate_cash cfg db name = (.ok g, db')) :
    ∃ per_reg, calculate_per_reg_amout pool = .ok per_reg ∧ per_reg.amount > 0 ∧
      pool.balance.amount > 0 ∧ pool.balance.symbol = SCORUM_SYMBOL ∧
      g = granted pool per_reg ∧
      db'.pool = some (service_increase_already_allocated_count (drained pool per_reg)) ∧
      db'.head_block_number = db.head_block_number ∧
      (name = "" → db'.members = db.members) ∧
      (name ≠ "" → ∃ member m, get_member db.members name = some member ∧
        take_by_committee_member cfg db.head_block_number (drained pool per_reg) member
          (granted pool per_reg) = .ok m ∧
        db'.members = update_member_info db.members name m) := by
  obtain ⟨per_reg, hper, hpos, hbal, hsym⟩ :=
    allocate_cash_success_inv cfg db name pool g db' hpool hok
  refine ⟨per_reg, hper, hpos, hbal, hsym, ?_⟩
  rw [allocate_cash_after_grant cfg db name pool per_reg hpool hper hpos hbal hsym] at hok
  by_cases hname : name = ""
  · simp only [hname, ne_eq, not_true_eq_false, if_false, Prod.mk.injEq,
      Except.ok.injEq] at hok
    obtain ⟨hg, hdb⟩ := hok
    subst hdb
    exact ⟨hg.symm, rfl, rfl, fun _ => rfl, fun h => absurd hname h⟩
  · simp only [ne_eq, hname, not_false_eq_true, if_true] at hok
    cases hmem : get_member db.members name with
    | none => simp [hmem] at hok
    | some member =>
      simp only [hmem] at hok
      cases htake : take_by_committee_member cfg db.head_block_number (drained pool per_reg)
          member (granted pool per_reg) with
      | error e => simp [htake] at hok
      | ok m =>
        simp only [htake, Prod.mk.injEq, Except.ok.injEq] at hok
        obtain ⟨hg, hdb⟩ := hok
        subst hdb
        exact ⟨hg.symm, rfl, rfl, fun h => absurd h hname, fun _ => ⟨member, m, rfl, htake, rfl⟩⟩

/-! ## Properties of the allocator -/

/-- C1: for a pool with a non-empty schedule, a positive per-registration bonus
`per_reg` and a positive balance, a successful `allocate_cash` (attributed or
not) grants exactly `min per_reg balance_before`, which is positive and at most
`per_reg`, and leaves the pool balance equal to `balance_before - grant`, which
is not negative: the grant is clamped to the remaining balance. -/
theorem allocate_cash_grant_clamped (cfg : limits) (db : database) (name : account_name_type)
    (pool : registration_pool_object) (per_reg g : asset) (db' : database)
    (hpool : db.pool = some pool) (_hsched : pool.schedule_items ≠ [])
    (hper : calculate_per_reg_amout pool = .ok per_reg) (hpos : per_reg.amount > 0)
    (hbal : pool.balance.amount > 0)
    (hok : allocate_cash cfg db name = (.ok g, db')) :
    g.amount = min per_reg.amount pool.balance.amount ∧ 0 < g.amount ∧
      g.amount ≤ per_reg.amount ∧
      ∃ pool', db'.pool = some pool' ∧
        pool'.balance.amount = pool.balance.amount - g.amount ∧ 0 ≤ pool'.balance.amount := by
  obtain ⟨r, hr, _, _, _, hg, hdb, _⟩ :=
    allocate_cash_success_state cfg db name pool g db' hpool hok
  have hrr : r = per_reg := by
    rw [hper] at hr
    cases hr
    rfl
  subst hrr
  have hga : g.amount = min r.amount pool.balance.amount := by rw [hg]; rfl
  refine ⟨hga, ?_, ?_, service_increase_already_allocated_count (drained pool r), hdb, ?_, ?_⟩
  · rw [hga]; exact lt_min hpos hbal
  · rw [hga]; exact min_le_left _ _
  · rw [hga]; rfl
  · have : min r.amount pool.balance.amount ≤ pool.balance.amount := min_le_right _ _
    show 0 ≤ pool.balance.amount - min r.amount pool.balance.amount
    omega

/-- Witness of C1 on the nearly drained pool: the bonus 50 is clamped to the
balance 30. -/
theorem allocate_cash_grant_clamped_witness :
    ((30 : Int) = min 50 30 ∧ (0 : Int) < 30 ∧ (30 : Int) ≤ 50) ∧
      ∃ pool', (allocate_cash limits_example db_low "bob").2.pool = some pool' ∧
        pool'.balance.amount = 30 - 30 ∧ 0 ≤ pool'.balance.amount := by
  have h := allocate_cash_grant_clamped limits_example db_low "bob" pool_low
    ⟨50, SCORUM_SYMBOL⟩ ⟨30, SCORUM_SYMBOL⟩ (allocate_cash limits_example db_low "bob").2
    rfl (by decide) (by decide) (by decide) (by decide) (by decide)
  exact ⟨⟨h.1, h.2.1, h.2.2.1⟩, h.2.2.2⟩

/-- C2: for a non-empty schedule and every `already_allocated_count`, the tier
used by `calculate_per_reg_amout` is the one at `tier_index`; this is the least
index `i` with `already_allocated_count < users_0 + ... + users_i`, and it is the
last index when the count is at least the sum of the users of all tiers. -/
theorem tier_selected_is_least (pool : registration_pool_object)
    (h : pool.schedule_items ≠ []) :
    (∃ tier,
      pool.schedule_items[tier_index pool.schedule_items pool.already_allocated_count]?
        = some tier ∧
      calculate_per_reg_amout pool =
        .ok ⟨Int.tdiv ((tier.bonus_percent : Int) * pool.maximum_bonus.amount) 100,
          SCORUM_SYMBOL⟩) ∧
    (pool.already_allocated_count
        < cumulative_users pool.schedule_items pool.schedule_items.length →
      pool.already_allocated_count < cumulative_users pool.schedule_items
        (tier_index pool.schedule_items pool.already_allocated_count + 1) ∧
      ∀ j, j < tier_index pool.schedule_items pool.already_allocated_count →
        cumulative_users pool.schedule_items (j + 1) ≤ pool.already_allocated_count) ∧
    (cumulative_users pool.schedule_items pool.schedule_items.length
        ≤ pool.already_allocated_count →
      tier_index pool.schedule_items pool.already_allocated_count
        = pool.schedule_items.length - 1) := by
  have hlen : 0 < pool.schedule_items.length := List.length_pos.mpr h
  have hle := find_position_le pool.schedule_items pool.already_allocated_count
  obtain ⟨h1, h2⟩ := find_position_spec pool.schedule_items pool.already_allocated_count
  refine ⟨calculate_per_reg_amout_eq pool h, ?_, ?_⟩
  · intro hlt
    have hne : find_position pool.schedule_items pool.already_allocated_count
        ≠ pool.schedule_items.length := by
      intro heq
      rw [heq] at h1
      omega
    have hidx : tier_index pool.schedule_items pool.already_allocated_count
        = find_position pool.schedule_items pool.already_allocated_count := by
      unfold tier_index
      simp only [hne, if_false]
    rw [hidx]
    refine ⟨h2 (by omega), ?_⟩
    intro j hj
    have := cumulative_users_mono pool.schedule_items (j + 1)
      (find_position pool.schedule_items pool.already_allocated_count) (by omega)
    omega
  · intro hge
    have heq : find_position pool.schedule_items pool.already_allocated_count
        = pool.schedule_items.length := by
      by_contra hne
      have hlt := h2 (by omega)
      have := cumulative_users_mono pool.schedule_items
        (find_position pool.schedule_items pool.already_allocated_count + 1)
        pool.schedule_items.length (by omega)
      omega
    unfold tier_index
    simp only [heq, if_true]

/-- Witness of C2 on a pool with two tiers and three allocations. -/
theorem tier_selected_is_least_witness :
    tier_index pool_low.schedule_items pool_low.already_allocated_count = 1 ∧
      calculate_per_reg_amout pool_low = .ok ⟨50, SCORUM_SYMBOL⟩ ∧
      pool_low.already_allocated_count < cumulative_users pool_low.schedule_items
        (tier_index pool_low.schedule_items pool_low.already_allocated_count + 1) := by
  have h := tier_selected_is_least pool_low (by decide)
  exact ⟨by decide, by decide, (h.2.1 (by decide)).1⟩

/-- C3: for a fixed schedule the selected tier index does not decrease when the
allocation count grows, and for every count at or beyond the cumulative
threshold of the last tier the selected tier is the last one. -/
theorem tier_index_monotone (items : List schedule_item) :
    (∀ n m : Nat, n ≤ m → tier_index items n ≤ tier_index items m) ∧
    (∀ n : Nat, cumulative_users items items.length ≤ n →
      tier_index items n = items.length - 1) := by
  constructor
  · intro n m hnm
    have h1 := find_position_mono items n m hnm
    have h2 := find_position_le items n
    have h3 := find_position_le items m
    unfold tier_index
    simp only
    split <;> split <;> omega
  · intro n hge
    have hle := find_position_le items n
    obtain ⟨_, h2⟩ := find_position_spec items n
    have heq : find_position items n = items.length := by
      by_contra hne
      have hlt := h2 (by omega)
      have := cumulative_users_mono items (find_position items n + 1) items.length (by omega)
      omega
    unfold tier_index
    simp only [heq, if_true]

/-- C4: the per-registration bonus of `calculate_per_reg_amout` is
`(tier.bonus_percent * maximum_bonus.amount) / 100` for the selected tier, the
product taken before a division that truncates, in the SCORUM symbol; and
`allocate_cash` fails with the zero bonus error, without touching the state,
when this value is zero. -/
theorem per_reg_amount_formula (cfg : limits) (db : database) (name : account_name_type)
    (pool : registration_pool_object) (hpool : db.pool = some pool)
    (h : pool.schedule_items ≠ []) :
    ∃ tier,
      pool.schedule_items[tier_index pool.schedule_items pool.already_allocated_count]?
        = some tier ∧
      calculate_per_reg_amout pool =
        .ok ⟨Int.tdiv ((tier.bonus_percent : Int) * pool.maximum_bonus.amount) 100,
          SCORUM_SYMBOL⟩ ∧
      (Int.tdiv ((tier.bonus_percent : Int) * pool.maximum_bonus.amount) 100 = 0 →
        allocate_cash cfg db name = (.error failure.zero_bonus, db)) := by
  obtain ⟨tier, ht, hcalc⟩ := calculate_per_reg_amout_eq pool h
  refine ⟨tier, ht, hcalc, ?_⟩
  intro hz
  unfold allocate_cash
  simp [hpool, hcalc, hz]

/-- Witness of C4: a pool whose only tier has 0 percent. -/
theorem per_reg_amount_formula_witness :
    ∃ tier : schedule_item,
      ([⟨1, 0⟩] : List schedule_item)[tier_index [⟨1, 0⟩] 0]? = some tier ∧
      calculate_per_reg_amout { pool_example with schedule_items := [⟨1, 0⟩] } =
        .ok ⟨Int.tdiv ((tier.bonus_percent : Int) * 100) 100, SCORUM_SYMBOL⟩ ∧
      (Int.tdiv ((tier.bonus_percent : Int) * 100) 100 = 0 →
        allocate_cash limits_example
            { db_example with pool := some { pool_example with schedule_items := [⟨1, 0⟩] } } "bob"
          = (.error failure.zero_bonus,
            { db_example with pool := some { pool_example with schedule_items := [⟨1, 0⟩] } })) :=
  per_reg_amount_formula limits_example
    { db_example with pool := some { pool_example with schedule_items := [⟨1, 0⟩] } } "bob"
    { pool_example with schedule_items := [⟨1, 0⟩] } rfl (by decide)

/-- C5: `allocate_cash` without a committee member, on an existing pool whose
balance is held in SCORUM, fails if and only if the schedule is empty, or the
computed `per_reg` is not positive, or the pool balance is not positive; in every
other case it succeeds. -/
theorem allocate_cash_fails_iff (cfg : limits) (db : database)
    (pool : registration_pool_object) (hpool : db.pool = some pool)
    (hsym : pool.balance.symbol = SCORUM_SYMBOL) :
    ((∃ e, (allocate_cash cfg db "").1 = .error e) ↔
      (pool.schedule_items = [] ∨
        (∀ r, calculate_per_reg_amout pool = .ok r → r.amount ≤ 0) ∨
        pool.balance.amount ≤ 0)) ∧
    ((∃ g, (allocate_cash cfg db "").1 = .ok g) ↔
      ¬ (pool.schedule_items = [] ∨
        (∀ r, calculate_per_reg_amout pool = .ok r → r.amount ≤ 0) ∨
        pool.balance.amount ≤ 0)) := by
  by_cases hcond : pool.schedule_items = [] ∨
      (∀ r, calculate_per_reg_amout pool = .ok r → r.amount ≤ 0) ∨ pool.balance.amount ≤ 0
  · have hfail : ∃ e, (allocate_cash cfg db "").1 = .error e := by
      cases hres : allocate_cash cfg db "" with
      | mk res db' =>
        cases res with
        | error e => exact ⟨e, rfl⟩
        | ok g =>
          obtain ⟨r, hr, hpos, hbal, _⟩ :=
            allocate_cash_success_inv cfg db "" pool g db' hpool hres
          rcases hcond with hc | hc | hc
          · exfalso
            unfold calculate_per_reg_amout at hr
            simp [hc] at hr
          · have := hc r hr
            omega
          · omega
    refine ⟨⟨fun _ => hcond, fun _ => hfail⟩, ⟨fun hok => ?_, fun hn => absurd hcond hn⟩⟩
    obtain ⟨e, he⟩ := hfail
    obtain ⟨g, hg⟩ := hok
    rw [he] at hg
    cases hg
  · have hne : pool.schedule_items ≠ [] := fun h => hcond (Or.inl h)
    obtain ⟨tier, _, hcalc⟩ := calculate_per_reg_amout_eq pool hne
    have hpos : (0 : Int) <
        Int.tdiv ((tier.bonus_percent : Int) * pool.maximum_bonus.amount) 100 := by
      by_contra hle
      exact hcond (Or.inr (Or.inl (fun r hr => by
        rw [hcalc] at hr
        cases hr
        show Int.tdiv ((tier.bonus_percent : Int) * pool.maximum_bonus.amount) 100 ≤ 0
        omega)))
    have hbal : pool.balance.amount > 0 := by
      by_contra hle
      exact hcond (Or.inr (Or.inr (by omega)))
    have hrun := allocate_cash_after_grant cfg db "" pool _ hpool hcalc hpos hbal hsym
    simp only [ne_eq, not_true_eq_false, if_false] at hrun
    have hok : ∃ g, (allocate_cash cfg db "").1 = .ok g := ⟨_, by rw [hrun]⟩
    refine ⟨⟨fun hfail => ?_, fun h => absurd h hcond⟩, ⟨fun _ => hcond, fun _ => hok⟩⟩
    obtain ⟨e, he⟩ := hfail
    rw [hrun] at he
    cases he

/-- Witness of C5: the pool of `db_example` has a schedule, a positive bonus and
a positive balance, and the call succeeds. -/
theorem allocate_cash_fails_iff_witness :
    ∃ g, (allocate_cash limits_example db_example "").1 = .ok g :=
  (allocate_cash_fails_iff limits_example db_example pool_example rfl rfl).2.mpr
    (by
      intro h
      rcases h with h | h | h
      · exact absurd h (by decide)
      · exact absurd (h ⟨50, SCORUM_SYMBOL⟩ (by decide)) (by decide)
      · exact absurd h (by decide))

/-- C6: every successful `allocate_cash` call, attributed to a committee member
or not and clamped or not, increases `already_allocated_count` of the pool by
exactly one. -/
theorem allocate_cash_counts_one (cfg : limits) (db : database) (name : account_name_type)
    (pool : registration_pool_object) (g : asset) (db' : database)
    (hpool : db.pool = some pool) (hok : allocate_cash cfg db name = (.ok g, db')) :
    ∃ pool', db'.pool = some pool' ∧
      pool'.already_allocated_count = pool.already_allocated_count + 1 := by
  obtain ⟨r, _, _, _, _, _, hdb, _⟩ :=
    allocate_cash_success_state cfg db name pool g db' hpool hok
  exact ⟨service_increase_already_allocated_count (drained pool r), hdb, rfl⟩

/-- Witness of C6: an attributed and clamped call on the nearly drained pool
moves the count from 3 to 4. -/
theorem allocate_cash_counts_one_witness :
    ∃ pool', (allocate_cash limits_example db_low "bob").2.pool = some pool' ∧
      pool'.already_allocated_count = 3 + 1 :=
  allocate_cash_counts_one limits_example db_low "bob" pool_low ⟨30, SCORUM_SYMBOL⟩
    (allocate_cash limits_example db_low "bob").2 rfl (by decide)

/-- C7, as stated, fails for a member that was never allocated to: with
`elapsed = head_block_number - last_allocated_block = 9 - 0` the stated
allowance `10 - 9` is positive and the stated limit is `10 * 100 * 1 / 10 = 100`,
which the sum `0 + 50` does not exceed, yet the call fails with the cash limit
error, because the code counts zero elapsed blocks and checks against
`1 * 100 * 1 / 10 = 10`. -/
theorem rate_limit_rule_stated_fails :
    ¬ rate_limit_rule (db_example.head_block_number - alice.last_allocated_block)
      limits_example db_example "alice" pool_example alice (min 50 1000) := by
  intro h
  have h1 := (h.1 (by decide)).mp (by decide)
  revert h1
  decide

/-- C7, amended: for an allocation attributed to a committee member, let
`elapsed` be 0 when the member was never allocated to (`last_allocated_block = 0`)
and `head_block_number - last_allocated_block` otherwise, and
`remain = max (per_n_block_remain - elapsed) 0`. If `remain > 0` the call fails
with the cash limit error if and only if `already_allocated_cash + grant` exceeds
`((elapsed + 1) * maximum_bonus.amount * LIMIT_PER_MEMBER_PER_N_BLOCK) /
LIMIT_PER_MEMBER_N_BLOCK`; if `remain = 0` it does not fail with that error. -/
theorem rate_limit_rule_holds (cfg : limits) (db : database) (name : account_name_type)
    (pool : registration_pool_object) (per_reg : asset)
    (member : registration_committee_member_object)
    (hpool : db.pool = some pool) (hper : calculate_per_reg_amout pool = .ok per_reg)
    (hpos : per_reg.amount > 0) (hbal : pool.balance.amount > 0)
    (hsym : pool.balance.symbol = SCORUM_SYMBOL) (hname : name ≠ "")
    (hmem : get_member db.members name = some member)
    (hcash : member.already_allocated_cash.symbol = SCORUM_SYMBOL)
    (hl : member.last_allocated_block ≤ db.head_block_number)
    (hh : db.head_block_number < 2 ^ 32) (hr : member.per_n_block_remain < 2 ^ 32) :
    rate_limit_rule (elapsed_blocks db.head_block_number member) cfg db name pool member
      (min per_reg.amount pool.balance.amount) := by
  have hpass : pass_blocks db.head_block_number member
      = elapsed_blocks db.head_block_number member := by
    rw [pass_blocks_eq _ _ hh hl]
    rfl
  have hdec : decayed_remain db.head_block_number member
      = member.per_n_block_remain - elapsed_blocks db.head_block_number member := by
    rw [decayed_remain_eq _ _ hr, hpass]
  have htake := take_by_committee_member_eq cfg db.head_block_number (drained pool per_reg)
    member (granted pool per_reg) hl hcash hsym
  have hrun := allocate_cash_after_grant cfg db name pool per_reg hpool hper hpos hbal hsym
  simp only [ne_eq, hname, not_false_eq_true, if_true, hmem, htake] at hrun
  unfold rate_limit_rule
  constructor
  · intro hrem
    have hd : decayed_remain db.head_block_number member > 0 := by omega
    have hlim : limit_per_memeber cfg (drained pool per_reg) db.head_block_number member
        = Int.tdiv (((elapsed_blocks db.head_block_number member + 1 : Nat) : Int)
            * pool.maximum_bonus.amount * (cfg.LIMIT_PER_MEMBER_PER_N_BLOCK : Int))
          (cfg.LIMIT_PER_MEMBER_N_BLOCK : Int) := by
      unfold limit_per_memeber u32_add
      rw [hpass, Nat.mod_eq_of_lt (by omega)]
      rfl
    have hg : (granted pool per_reg).amount = min per_reg.amount pool.balance.amount := rfl
    rw [hrun]
    simp only [hd, if_true, hlim, hg]
    by_cases hc : member.already_allocated_cash.amount + min per_reg.amount pool.balance.amount
        ≤ Int.tdiv (((elapsed_blocks db.head_block_number member + 1 : Nat) : Int)
            * pool.maximum_bonus.amount * (cfg.LIMIT_PER_MEMBER_PER_N_BLOCK : Int))
          (cfg.LIMIT_PER_MEMBER_N_BLOCK : Int)
    · simp only [hc, if_true]
      constructor
      · intro h; cases h
      · intro h; omega
    · simp only [hc, if_false]
      constructor
      · intro _; omega
      · intro _; trivial
  · intro hrem
    have hd : ¬ decayed_remain db.head_block_number member > 0 := by omega
    rw [hrun]
    simp only [hd, if_false]
    intro h
    cases h

/-- Witness of the amended C7: a member last allocated to in block 4, seen at
head block 9. -/
theorem rate_limit_rule_holds_witness :
    rate_limit_rule (elapsed_blocks db_example.head_block_number bob) limits_example db_example
      "bob" pool_example bob (min 50 1000) :=
  rate_limit_rule_holds limits_example db_example "bob" pool_example ⟨50, SCORUM_SYMBOL⟩ bob
    rfl (by decide) (by decide) (by decide) rfl (by decide) (by decide) rfl (by decide)
    (by decide) (by decide)

/-- C8, as stated, fails for a member that was never allocated to: the call at
head block 9 succeeds with the grant 5; with
`elapsed = head_block_number - last_allocated_block = 9 - 0` the stated decayed
allowance is `10 - 9 = 1`, but the stored record keeps the allowance 10, because
the code counts zero elapsed blocks for such a member. -/
theorem member_record_rule_stated_fails :
    (allocate_cash limits_example db_small "alice").1 = .ok ⟨5, SCORUM_SYMBOL⟩ ∧
      get_member (allocate_cash limits_example db_small "alice").2.members "alice"
        = some ⟨"alice", 9, 10, ⟨5, SCORUM_SYMBOL⟩⟩ ∧
      ¬ member_record_rule (db_small.head_block_number - alice.last_allocated_block)
        limits_example db_small "alice" alice ⟨5, SCORUM_SYMBOL⟩
        (allocate_cash limits_example db_small "alice").2 := by
  refine ⟨by decide, by decide, ?_⟩
  intro h
  obtain ⟨m, hm, _, h1, _⟩ := h
  have hstored : get_member (allocate_cash limits_example db_small "alice").2.members "alice"
      = some ⟨"alice", 9, 10, ⟨5, SCORUM_SYMBOL⟩⟩ := by decide
  rw [hstored] at hm
  cases hm
  have h2 := (h1 (by decide)).1
  revert h2
  decide

/-- C8, amended: after a successful allocation attributed to a committee member
the record of the member has `last_allocated_block` equal to the head block
number; with `elapsed` equal to 0 for a member that was never allocated to
(`last_allocated_block = 0`) and to `head_block_number - last_allocated_block`
otherwise, and `remain = max (per_n_block_remain - elapsed) 0`: if `remain` is
positive then `per_n_block_remain = remain` and `already_allocated_cash` is the
old value plus the granted amount; otherwise the window is reset,
`per_n_block_remain = LIMIT_PER_MEMBER_N_BLOCK` and `already_allocated_cash = 0`. -/
theorem member_record_after_success (cfg : limits) (db : database) (name : account_name_type)
    (pool : registration_pool_object) (member : registration_committee_member_object)
    (g : asset) (db' : database)
    (hpool : db.pool = some pool) (hname : name ≠ "")
    (hmem : get_member db.members name = some member)
    (hh : db.head_block_number < 2 ^ 32) (hr : member.per_n_block_remain < 2 ^ 32)
    (hok : allocate_cash cfg db name = (.ok g, db')) :
    ∃ m, get_member db'.members name = some m ∧
      m.last_allocated_block = db.head_block_number ∧
      (0 < member.per_n_block_remain - elapsed_blocks db.head_block_number member →
        m.per_n_block_remain
            = member.per_n_block_remain - elapsed_blocks db.head_block_number member ∧
          m.already_allocated_cash.amount = member.already_allocated_cash.amount + g.amount) ∧
      (member.per_n_block_remain - elapsed_blocks db.head_block_number member = 0 →
        m.per_n_block_remain = cfg.LIMIT_PER_MEMBER_N_BLOCK ∧
          m.already_allocated_cash = ⟨0, SCORUM_SYMBOL⟩) := by
  obtain ⟨r, _, _, _, _, hg, _, _, _, hatt⟩ :=
    allocate_cash_success_state cfg db name pool g db' hpool hok
  obtain ⟨member', m, hmem', htake, hmembers⟩ := hatt hname
  rw [hmem] at hmem'
  cases hmem'
  have hacc : m.account = name := by
    rw [take_by_committee_member_account _ _ _ _ _ _ htake]
    exact get_member_account _ _ _ hmem
  refine ⟨m, ?_, ?_⟩
  · rw [hmembers]
    exact get_member_update _ _ _ _ hmem hacc
  · unfold take_by_committee_member at htake
    split at htake
    · cases htake
    · rename_i hl
      have hl' : member.last_allocated_block ≤ db.head_block_number := by omega
      have hpass : pass_blocks db.head_block_number member
          = elapsed_blocks db.head_block_number member := by
        rw [pass_blocks_eq _ _ hh hl']
        rfl
      have hdec : decayed_remain db.head_block_number member
          = member.per_n_block_remain - elapsed_blocks db.head_block_number member := by
        rw [decayed_remain_eq _ _ hr, hpass]
      split at htake
      · rename_i hd
        split at htake
        · cases htake
        · rename_i total hadd
          have htotal : total.amount = member.already_allocated_cash.amount + g.amount := by
            unfold asset.add at hadd
            split at hadd
            · cases hadd
              rw [hg]
            · cases hadd
          split at htake
          · cases htake
          · cases htake
          · cases htake
            refine ⟨rfl, fun _ => ⟨hdec, htotal⟩, fun h0 => ?_⟩
            omega
      · rename_i hd
        cases htake
        refine ⟨rfl, fun hpos => ?_, fun _ => ⟨rfl, rfl⟩⟩
        omega

/-- Witness of the amended C8 on the nearly drained pool: the member keeps five
blocks of allowance and is charged the clamped grant 30. -/
theorem member_record_after_success_witness :
    ∃ m, get_member (allocate_cash limits_example db_low "bob").2.members "bob" = some m ∧
      m.last_allocated_block = 9 ∧
      (0 < bob.per_n_block_remain - elapsed_blocks 9 bob →
        m.per_n_block_remain = bob.per_n_block_remain - elapsed_blocks 9 bob ∧
          m.already_allocated_cash.amount = bob.already_allocated_cash.amount + 30) ∧
      (bob.per_n_block_remain - elapsed_blocks 9 bob = 0 →
        m.per_n_block_remain = limits_example.LIMIT_PER_MEMBER_N_BLOCK ∧
          m.already_allocated_cash = ⟨0, SCORUM_SYMBOL⟩) :=
  member_record_after_success limits_example db_low "bob" pool_low bob ⟨30, SCORUM_SYMBOL⟩
    (allocate_cash limits_example db_low "bob").2 rfl (by decide) (by decide) (by decide)
    (by decide) (by decide)

/-- C9: for a committee member that was never allocated to
(`last_allocated_block = 0`) the last allocated block is taken to be the head
block, so the count of passed blocks is zero whatever the head block number is,
and the allowance of the member is not decayed on that call. -/
theorem first_allocation_zero_elapsed (head_block_num : Nat)
    (member : registration_committee_member_object)
    (h0 : member.last_allocated_block = 0) (hr : member.per_n_block_remain < 2 ^ 32) :
    pass_blocks head_block_num member = 0 ∧
      decayed_remain head_block_num member = member.per_n_block_remain ∧
      ∀ (cfg : limits) (pool : registration_pool_object) (amount : asset)
        (m : registration_committee_member_object),
        take_by_committee_member cfg head_block_num pool member amount = .ok m →
        0 < member.per_n_block_remain →
        m.per_n_block_remain = member.per_n_block_remain := by
  have hpass : pass_blocks head_block_num member = 0 := by
    unfold pass_blocks u32_sub
    simp only [h0, if_true]
    omega
  have hdec : decayed_remain head_block_num member = member.per_n_block_remain := by
    rw [decayed_remain_eq _ _ hr, hpass]
    rfl
  refine ⟨hpass, hdec, ?_⟩
  intro cfg pool amount m htake hpos
  unfold take_by_committee_member at htake
  rw [hdec] at htake
  simp only [h0, Nat.zero_le, not_true_eq_false, if_false, hpos, gt_iff_lt, if_true] at htake
  repeat' split at htake
  all_goals first
    | (cases htake; rfl)
    | cases htake

/-- Witness of C9: a fresh member seen at head block 9, allocated 5. -/
theorem first_allocation_zero_elapsed_witness :
    pass_blocks 9 alice = 0 ∧ decayed_remain 9 alice = alice.per_n_block_remain ∧
      ∀ m, take_by_committee_member limits_example 9 pool_example alice ⟨5, SCORUM_SYMBOL⟩
          = .ok m → m.per_n_block_remain = alice.per_n_block_remain := by
  have h := first_allocation_zero_elapsed 9 alice rfl (by decide)
  exact ⟨h.1, h.2.1, fun m hm => h.2.2 limits_example pool_example ⟨5, SCORUM_SYMBOL⟩ m hm
    (by decide)⟩

/-- C10: when an attributed `allocate_cash` call fails because the cash limit of
the committee member would be exceeded, the roster is as before the call, so
`already_allocated_cash`, `per_n_block_remain` and `last_allocated_block` of the
member are unchanged. -/
theorem cash_limit_failure_keeps_member (cfg : limits) (db : database)
    (name : account_name_type) (db' : database)
    (h : allocate_cash cfg db name = (.error failure.cash_limit, db')) :
    db'.members = db.members ∧
      get_member db'.members name = get_member db.members name := by
  have hm := (allocate_cash_failure_members cfg db name _ db' h).1
  exact ⟨hm, by rw [hm]⟩

/-- Witness of C10: the fresh member of `db_example` runs into the cash limit
and the record stays as it was. -/
theorem cash_limit_failure_keeps_member_witness :
    (allocate_cash limits_example db_example "alice").2.members = db_example.members ∧
      get_member (allocate_cash limits_example db_example "alice").2.members "alice"
        = get_member db_example.members "alice" :=
  cash_limit_failure_keeps_member limits_example db_example "alice"
    (allocate_cash limits_example db_example "alice").2 (by decide)

/-! ## State after a failure -/

theorem service_decrease_balance_fields (pool pool' : registration_pool_object)
    (amount : asset) (h : service_decrease_balance pool amount = .ok pool') :
    pool'.already_allocated_count = pool.already_allocated_count ∧
      pool'.schedule_items = pool.schedule_items ∧
      pool'.maximum_bonus = pool.maximum_bonus := by
  unfold service_decrease_balance at h
  split at h
  · cases h
  · cases h
    exact ⟨rfl, rfl, rfl⟩

theorem decrease_balance_fields (pool : registration_pool_object) (balance : asset) :
    (decrease_balance pool balance).2.already_allocated_count = pool.already_allocated_count ∧
      (decrease_balance pool balance).2.schedule_items = pool.schedule_items ∧
      (decrease_balance pool balance).2.maximum_bonus = pool.maximum_bonus := by
  unfold decrease_balance
  by_cases hb : balance.amount > 0
  · simp only [hb, not_true_eq_false, if_false]
    cases hc : (if pool.balance.amount > 0 then balance.le pool.balance else Except.ok false) with
    | error e => exact ⟨rfl, rfl, rfl⟩
    | ok b =>
      cases b with
      | true =>
        simp only
        cases hs : service_decrease_balance pool balance with
        | error e => exact ⟨rfl, rfl, rfl⟩
        | ok pool' => exact service_decrease_balance_fields _ _ _ hs
      | false =>
        simp only
        cases hs : service_decrease_balance pool pool.balance with
        | error e => exact ⟨rfl, rfl, rfl⟩
        | ok pool' =>
          simp only
          split <;> exact service_decrease_balance_fields _ _ _ hs
  · simp [hb]

theorem decrease_balance_failure_state (pool : registration_pool_object) (balance : asset)
    (h : ¬ (balance.amount > 0 ∧ pool.balance.amount > 0 ∧
      balance.symbol = pool.balance.symbol))
    (hb : 0 ≤ pool.balance.amount) :
    (decrease_balance pool balance).2 = pool := by
  unfold decrease_balance
  by_cases hbal : balance.amount > 0
  · by_cases hp : pool.balance.amount > 0
    · have hs : ¬ balance.symbol = pool.balance.symbol := fun hs => h ⟨hbal, hp, hs⟩
      simp [hbal, hp, asset.le, hs]
    · have h0 : pool.balance.amount = 0 := by omega
      simp only [hbal, hp, not_true_eq_false, if_false, service_decrease_balance, asset.sub,
        if_true, h0, sub_self, lt_self_iff_false, not_false_eq_true, gt_iff_lt]
      cases pool with
      | mk balance' mb cnt items =>
        cases balance' with
        | mk amt sym =>
          simp only at h0
          subst h0
          rfl
  · simp [hbal]

theorem allocate_cash_failure_shape (cfg : limits) (db : database) (name : account_name_type)
    (pool : registration_pool_object) (e : failure) (db' : database)
    (hpool : db.pool = some pool) (h : allocate_cash cfg db name = (.error e, db')) :
    db' = db ∨ ∃ per_reg, calculate_per_reg_amout pool = .ok per_reg ∧ per_reg.amount > 0 ∧
      db' = { db with pool := some (decrease_balance pool per_reg).2 } := by
  unfold allocate_cash at h
  simp only [hpool] at h
  cases hper : calculate_per_reg_amout pool with
  | error e' =>
    simp only [hper, Prod.mk.injEq] at h
    exact Or.inl h.2.symm
  | ok per_reg =>
    simp only [hper] at h
    by_cases hpos : per_reg.amount > 0
    · right
      refine ⟨per_reg, rfl, hpos, ?_⟩
      simp only [hpos, not_true_eq_false, if_false] at h
      cases hd : decrease_balance pool per_reg with
      | mk res pool' =>
        rw [hd] at h
        cases res with
        | error e' =>
          simp only [Prod.mk.injEq] at h
          exact h.2.symm
        | ok g =>
          simp only at h
          repeat' split at h
          all_goals first
            | (simp only [Prod.mk.injEq] at h; exact h.2.symm)
            | (simp only [Prod.mk.injEq] at h; obtain ⟨h1, _⟩ := h; cases h1)
    · simp only [hpos, not_false_eq_true, if_true, Prod.mk.injEq] at h
      exact Or.inl h.2.symm

theorem database_pool_eta (db : database) (pool : registration_pool_object)
    (hpool : db.pool = some pool) : { db with pool := some pool } = db := by
  cases db with
  | mk p m h =>
    simp only at hpool
    subst hpool
    rfl

/-! ## Properties of failing calls, of the member window and of the task -/

/-- C11, as stated, fails: the attributed call for the fresh member of
`db_example` fails with the cash limit error after `decrease_balance` has
already taken the grant, and leaves the pool balance at 950 instead of 1000. -/
theorem allocate_cash_failure_changes_balance :
    (allocate_cash limits_example db_example "alice").1 = .error failure.cash_limit ∧
      (allocate_cash limits_example db_example "alice").2 ≠ db_example ∧
      (allocate_cash limits_example db_example "alice").2.pool
        = some { pool_example with balance := ⟨950, SCORUM_SYMBOL⟩ } := by
  decide

/-- C11, amended: whenever `allocate_cash` fails, every committee member record,
the head block number and the `already_allocated_count`, schedule and maximum
bonus of the pool are as before the call. The whole state is as before when there
is no pool, when the failure comes from the schedule or the zero bonus check,
and for every failure of a call without a committee member on a pool whose
balance is not negative. A failure of a call on a pool with positive SCORUM
balance and positive bonus (such a call is attributed, and fails on the member
lookup, the block order or the rate limit) leaves the pool balance decreased by
the grant. -/
theorem allocate_cash_failure_state (cfg : limits) (db : database) (name : account_name_type)
    (e : failure) (db' : database) (h : allocate_cash cfg db name = (.error e, db')) :
    (db'.members = db.members ∧ db'.head_block_number = db.head_block_number) ∧
    (∀ pool, db.pool = some pool → ∃ pool', db'.pool = some pool' ∧
      pool'.already_allocated_count = pool.already_allocated_count ∧
      pool'.schedule_items = pool.schedule_items ∧
      pool'.maximum_bonus = pool.maximum_bonus) ∧
    (db.pool = none → db' = db) ∧
    (∀ pool, db.pool = some pool →
      (∀ r, calculate_per_reg_amout pool = .ok r → r.amount ≤ 0) → db' = db) ∧
    (∀ pool, db.pool = some pool → name = "" → 0 ≤ pool.balance.amount → db' = db) ∧
    (∀ pool per_reg, db.pool = some pool → calculate_per_reg_amout pool = .ok per_reg →
      0 < per_reg.amount → 0 < pool.balance.amount → pool.balance.symbol = SCORUM_SYMBOL →
      name ≠ "" ∧ db' = { db with pool := some (drained pool per_reg) }) := by
  refine ⟨allocate_cash_failure_members cfg db name e db' h, ?_, ?_, ?_, ?_, ?_⟩
  · intro pool hpool
    rcases allocate_cash_failure_shape cfg db name pool e db' hpool h with hd | ⟨r, _, _, hd⟩
    · rw [hd]
      exact ⟨pool, hpool, rfl, rfl, rfl⟩
    · rw [hd]
      exact ⟨_, rfl, decrease_balance_fields pool r⟩
  · intro hnone
    unfold allocate_cash at h
    simp only [hnone, Prod.mk.injEq] at h
    exact h.2.symm
  · intro pool hpool hzero
    rcases allocate_cash_failure_shape cfg db name pool e db' hpool h with hd | ⟨r, hr, hpos, _⟩
    · exact hd
    · have := hzero r hr
      omega
  · intro pool hpool hname hbal
    rcases allocate_cash_failure_shape cfg db name pool e db' hpool h with hd | ⟨r, hr, hpos, hd⟩
    · exact hd
    · by_cases hc : r.amount > 0 ∧ pool.balance.amount > 0 ∧ r.symbol = pool.balance.symbol
      · exfalso
        have hsym : pool.balance.symbol = SCORUM_SYMBOL := by
          rw [← hc.2.2, calculate_per_reg_amout_symbol pool r hr]
        rw [allocate_cash_after_grant cfg db name pool r hpool hr hpos hc.2.1 hsym] at h
        simp only [hname, ne_eq, not_true_eq_false, if_false, Prod.mk.injEq] at h
        obtain ⟨h1, _⟩ := h
        cases h1
      · rw [hd, decrease_balance_failure_state pool r hc hbal]
        exact database_pool_eta db pool hpool
  · intro pool per_reg hpool hper hpos hbal hsym
    rw [allocate_cash_after_grant cfg db name pool per_reg hpool hper hpos hbal hsym] at h
    by_cases hname : name = ""
    · exfalso
      simp only [hname, ne_eq, not_true_eq_false, if_false, Prod.mk.injEq] at h
      obtain ⟨h1, _⟩ := h
      cases h1
    · refine ⟨hname, ?_⟩
      simp only [ne_eq, hname, not_false_eq_true, if_true] at h
      repeat' split at h
      all_goals first
        | (simp only [Prod.mk.injEq] at h; exact h.2.symm)
        | (simp only [Prod.mk.injEq] at h; obtain ⟨h1, _⟩ := h; cases h1)

/-- Witness of the amended C11: the failing call of the fresh member. -/
theorem allocate_cash_failure_state_witness :
    (allocate_cash limits_example db_example "alice").2.members = db_example.members ∧
      (allocate_cash limits_example db_example "alice").2
        = { db_example with pool := some (drained pool_example ⟨50, SCORUM_SYMBOL⟩) } := by
  have h := allocate_cash_failure_state limits_example db_example "alice" failure.cash_limit
    (allocate_cash limits_example db_example "alice").2 (by decide)
  exact ⟨h.1.1, (h.2.2.2.2.2 pool_example ⟨50, SCORUM_SYMBOL⟩ rfl (by decide) (by decide)
    (by decide) rfl).2⟩

/-- C14: for a pool with balance 1000, schedule `[(users 1, bonus_percent 50)]`,
maximum bonus 100 and `already_allocated_count` 0 the first `allocate_cash()`
returns 50 and leaves balance 950; a second `allocate_cash()` on the resulting
pool, whose only tier is exhausted, also returns 50. -/
theorem scenario_registration_bonus (cfg : limits)
    (members : List registration_committee_member_object) (head_block_number : Nat) :
    allocate_cash cfg ⟨some pool_example, members, head_block_number⟩ ""
      = (.ok ⟨50, SCORUM_SYMBOL⟩,
          ⟨some { pool_example with
                  balance := ⟨950, SCORUM_SYMBOL⟩
                  already_allocated_count := 1 },
            members, head_block_number⟩) ∧
    (allocate_cash cfg
        ⟨some { pool_example with
                balance := ⟨950, SCORUM_SYMBOL⟩
                already_allocated_count := 1 },
          members, head_block_number⟩ "").1
      = .ok ⟨50, SCORUM_SYMBOL⟩ := by
  constructor <;> rfl

/-! ## The window of a committee member -/

theorem limit_within_cap (p n : Nat) (x : Int) (hx : 0 ≤ x) (hn : 0 < n) (hp : p + 1 ≤ n) :
    Int.tdiv (((p + 1 : Nat) : Int) * x) (n : Int) ≤ x := by
  have h0 : (0 : Int) ≤ ((p + 1 : Nat) : Int) * x := by positivity
  rw [Int.tdiv_eq_ediv h0 (by positivity)]
  apply Int.ediv_le_of_le_mul (by exact_mod_cast hn)
  have : ((p + 1 : Nat) : Int) ≤ (n : Int) := by exact_mod_cast hp
  nlinarith

theorem take_by_committee_member_success (cfg : limits) (head_block_num : Nat)
    (pool : registration_pool_object) (member m : registration_committee_member_object)
    (amount : asset) (hh : head_block_num < 2 ^ 32) (hr : member.per_n_block_remain < 2 ^ 32)
    (h : take_by_committee_member cfg head_block_num pool member amount = .ok m) :
    m.last_allocated_block = head_block_num ∧
    ((0 < decayed_remain head_block_num member ∧
        0 < member.per_n_block_remain - elapsed_blocks head_block_num member ∧
        m.per_n_block_remain
          = member.per_n_block_remain - elapsed_blocks head_block_num member ∧
        m.already_allocated_cash.amount
          = member.already_allocated_cash.amount + amount.amount ∧
        m.already_allocated_cash.amount ≤
          Int.tdiv (((elapsed_blocks head_block_num member + 1 : Nat) : Int)
            * (pool.maximum_bonus.amount * (cfg.LIMIT_PER_MEMBER_PER_N_BLOCK : Int)))
            (cfg.LIMIT_PER_MEMBER_N_BLOCK : Int)) ∨
      (decayed_remain head_block_num member = 0 ∧
        m.per_n_block_remain = cfg.LIMIT_PER_MEMBER_N_BLOCK ∧
        m.already_allocated_cash = ⟨0, SCORUM_SYMBOL⟩)) := by
  unfold take_by_committee_member at h
  split at h
  · cases h
  · rename_i hl
    have hl' : member.last_allocated_block ≤ head_block_num := by omega
    have hpass : pass_blocks head_block_num member = elapsed_blocks head_block_num member := by
      rw [pass_blocks_eq _ _ hh hl']
      rfl
    have hdec : decayed_remain head_block_num member
        = member.per_n_block_remain - elapsed_blocks head_block_num member := by
      rw [decayed_remain_eq _ _ hr, hpass]
    split at h
    · rename_i hd
      have hlim : limit_per_memeber cfg pool head_block_num member
          = Int.tdiv (((elapsed_blocks head_block_num member + 1 : Nat) : Int)
              * (pool.maximum_bonus.amount * (cfg.LIMIT_PER_MEMBER_PER_N_BLOCK : Int)))
            (cfg.LIMIT_PER_MEMBER_N_BLOCK : Int) := by
        unfold limit_per_memeber u32_add
        rw [hpass, Nat.mod_eq_of_lt (by omega), mul_assoc]
      split at h
      · cases h
      · rename_i total hadd
        have htotal : total.amount = member.already_allocated_cash.amount + amount.amount := by
          unfold asset.add at hadd
          split at hadd
          · cases hadd
            rfl
          · cases hadd
        split at h
        · cases h
        · cases h
        · rename_i hle
          have hle' : total.amount ≤ limit_per_memeber cfg pool head_block_num member := by
            unfold asset.le at hle
            split at hle
            · simpa using hle
            · cases hle
          cases h
          refine ⟨rfl, Or.inl ⟨hd, by omega, hdec, htotal, ?_⟩⟩
          rw [← hlim]
          exact hle'
    · rename_i hd
      cases h
      exact ⟨rfl, Or.inr ⟨by omega, rfl, rfl⟩⟩

theorem window_calls_invariant (cfg : limits) (pool : registration_pool_object)
    (hmax : 0 ≤ pool.maximum_bonus.amount) (hn : 0 < cfg.LIMIT_PER_MEMBER_N_BLOCK)
    (hn32 : cfg.LIMIT_PER_MEMBER_N_BLOCK < 2 ^ 32) (calls : List (Nat × asset)) :
    ∀ (m mk : registration_committee_member_object),
      m.per_n_block_remain ≤ cfg.LIMIT_PER_MEMBER_N_BLOCK →
      (∀ c ∈ calls, c.1 < 2 ^ 32) →
      window_calls cfg pool m calls = some mk →
      mk.already_allocated_cash.amount = m.already_allocated_cash.amount + granted_sum calls ∧
        mk.per_n_block_remain ≤ cfg.LIMIT_PER_MEMBER_N_BLOCK ∧
        (calls ≠ [] → mk.already_allocated_cash.amount
          ≤ pool.maximum_bonus.amount * (cfg.LIMIT_PER_MEMBER_PER_N_BLOCK : Int)) := by
  induction calls with
  | nil =>
    intro m mk hrem _ hrun
    simp only [window_calls, Option.some.injEq] at hrun
    subst hrun
    simp [granted_sum, hrem]
  | cons c rest ih =>
    intro m mk hrem hheads hrun
    obtain ⟨head_block_num, amount⟩ := c
    simp only [window_calls] at hrun
    split at hrun
    · rename_i hd
      split at hrun
      · rename_i m' htake
        have hh : head_block_num < 2 ^ 32 := hheads (head_block_num, amount) (by simp)
        obtain ⟨_, hcase⟩ := take_by_committee_member_success cfg head_block_num pool m m'
          amount hh (by omega) htake
        rcases hcase with ⟨_, hpos, hrem', hcash, hlim⟩ | ⟨hzero, _, _⟩
        · have hcap : m'.already_allocated_cash.amount
              ≤ pool.maximum_bonus.amount * (cfg.LIMIT_PER_MEMBER_PER_N_BLOCK : Int) :=
            le_trans hlim (limit_within_cap _ _ _ (by positivity) hn (by omega))
          obtain ⟨h1, h2, h3⟩ := ih m' mk (by omega)
            (fun c hc => hheads c (List.mem_cons_of_mem _ hc)) hrun
          refine ⟨?_, h2, fun _ => ?_⟩
          · rw [h1, hcash]
            simp only [granted_sum, List.map_cons, List.sum_cons]
            ring
          · by_cases hrest : rest = []
            · subst hrest
              simp only [window_calls, Option.some.injEq] at hrun
              subst hrun
              exact hcap
            · exact h3 hrest
        · omega
      · cases hrun
    · cases hrun

/-- C12: invariant of the committee member records under `allocate_cash`, for a
maximum bonus that is not negative and positive limit constants: when the record
has `per_n_block_remain <= LIMIT_PER_MEMBER_N_BLOCK` before a successful
attributed allocation, then after it the record again has
`per_n_block_remain <= LIMIT_PER_MEMBER_N_BLOCK`, the maximum bonus is the same,
and if `per_n_block_remain > 0` then `already_allocated_cash` is at most
`maximum_bonus.amount * LIMIT_PER_MEMBER_PER_N_BLOCK`, the cap of one full
window. -/
theorem member_cash_cap_invariant (cfg : limits) (db : database) (name : account_name_type)
    (pool : registration_pool_object) (member : registration_committee_member_object)
    (g : asset) (db' : database)
    (hpool : db.pool = some pool) (hname : name ≠ "")
    (hmem : get_member db.members name = some member)
    (hmax : 0 ≤ pool.maximum_bonus.amount) (hn : 0 < cfg.LIMIT_PER_MEMBER_N_BLOCK)
    (hn32 : cfg.LIMIT_PER_MEMBER_N_BLOCK < 2 ^ 32) (hh : db.head_block_number < 2 ^ 32)
    (hrem : member.per_n_block_remain ≤ cfg.LIMIT_PER_MEMBER_N_BLOCK)
    (hok : allocate_cash cfg db name = (.ok g, db')) :
    (∃ pool', db'.pool = some pool' ∧ pool'.maximum_bonus = pool.maximum_bonus) ∧
    ∃ m, get_member db'.members name = some m ∧
      m.per_n_block_remain ≤ cfg.LIMIT_PER_MEMBER_N_BLOCK ∧
      (0 < m.per_n_block_remain →
        m.already_allocated_cash.amount
          ≤ pool.maximum_bonus.amount * (cfg.LIMIT_PER_MEMBER_PER_N_BLOCK : Int)) := by
  obtain ⟨r, _, _, _, _, _, hdb, _, _, hatt⟩ :=
    allocate_cash_success_state cfg db name pool g db' hpool hok
  obtain ⟨member', m, hmem', htake, hmembers⟩ := hatt hname
  rw [hmem] at hmem'
  cases hmem'
  have hacc : m.account = name := by
    rw [take_by_committee_member_account _ _ _ _ _ _ htake]
    exact get_member_account _ _ _ hmem
  refine ⟨⟨_, hdb, rfl⟩, m, ?_, ?_⟩
  · rw [hmembers]
    exact get_member_update _ _ _ _ hmem hacc
  · obtain ⟨_, hcase⟩ := take_by_committee_member_success cfg db.head_block_number
      (drained pool r) member m (granted pool r) hh (by omega) htake
    have hcapnn : (0 : Int)
        ≤ pool.maximum_bonus.amount * (cfg.LIMIT_PER_MEMBER_PER_N_BLOCK : Int) := by
      positivity
    rcases hcase with ⟨_, hpos, hrem', _, hlim⟩ | ⟨_, hrem', hcash⟩
    · refine ⟨by omega, fun _ => ?_⟩
      exact le_trans hlim (limit_within_cap _ _ _ hcapnn hn (by omega))
    · refine ⟨by omega, fun _ => ?_⟩
      rw [hcash]
      exact hcapnn

/-- Witness of C12: the member allocated to in block 4 is charged 50 of the cap
100 and keeps five blocks of allowance. -/
theorem member_cash_cap_invariant_witness :
    ∃ m, get_member (allocate_cash limits_example db_example "bob").2.members "bob" = some m ∧
      m.per_n_block_remain ≤ 10 ∧
      (0 < m.per_n_block_remain → m.already_allocated_cash.amount ≤ 100 * (1 : Nat)) :=
  (member_cash_cap_invariant limits_example db_example "bob" pool_example bob
    ⟨50, SCORUM_SYMBOL⟩ (allocate_cash limits_example db_example "bob").2 rfl (by decide)
    (by decide) (by decide) (by decide) (by decide) (by decide) (by decide) (by decide)).2

/-- C13, as stated, fails: the call at head block 9 resets the window of the
member and grants 100, the call at head block 18 falls into the same window
(one block of allowance is left) and grants 100 again, so the cash granted in
the window is 200 while the cap is `100 * 1`. The grant of the call that opens
the window is not entered into `already_allocated_cash`. -/
theorem window_cap_stated_fails :
    ¬ window_cap_stated limits_example pool_full carol 9 ⟨100, SCORUM_SYMBOL⟩
      [(18, ⟨100, SCORUM_SYMBOL⟩)] := by
  intro h
  have h1 := h (by decide) ⟨"carol", 9, 10, ⟨0, SCORUM_SYMBOL⟩⟩
    ⟨"carol", 18, 1, ⟨100, SCORUM_SYMBOL⟩⟩ (by decide) (by decide)
  revert h1
  decide

/-- C13, amended: for a maximum bonus that is not negative, when a call opens a
window of a committee member by resetting it and `calls` are the successful
attributed allocations that follow in that window (up to, not including, the
next reset), then `already_allocated_cash` after them is the sum of the cash they
granted, and this sum is at most
`maximum_bonus.amount * LIMIT_PER_MEMBER_PER_N_BLOCK`; the grant of the opening
call is not counted. -/
theorem window_cash_within_cap (cfg : limits) (pool : registration_pool_object)
    (member m0 mk : registration_committee_member_object) (head_block_num : Nat)
    (amount : asset) (calls : List (Nat × asset))
    (hmax : 0 ≤ pool.maximum_bonus.amount) (hn : 0 < cfg.LIMIT_PER_MEMBER_N_BLOCK)
    (hn32 : cfg.LIMIT_PER_MEMBER_N_BLOCK < 2 ^ 32)
    (hheads : ∀ c ∈ calls, c.1 < 2 ^ 32)
    (hreset : decayed_remain head_block_num member = 0)
    (hopen : take_by_committee_member cfg head_block_num pool member amount = .ok m0)
    (hrun : window_calls cfg pool m0 calls = some mk) :
    mk.already_allocated_cash.amount = granted_sum calls ∧
      granted_sum calls
        ≤ pool.maximum_bonus.amount * (cfg.LIMIT_PER_MEMBER_PER_N_BLOCK : Int) := by
  have hm0 : m0.per_n_block_remain = cfg.LIMIT_PER_MEMBER_N_BLOCK ∧
      m0.already_allocated_cash.amount = 0 := by
    unfold take_by_committee_member at hopen
    split at hopen
    · cases hopen
    · simp only [hreset, gt_iff_lt, lt_self_iff_false, if_false, Except.ok.injEq] at hopen
      subst hopen
      exact ⟨rfl, rfl⟩
  obtain ⟨h1, _, h3⟩ := window_calls_invariant cfg pool hmax hn hn32 calls m0 mk
    (by omega) hheads hrun
  rw [hm0.2, zero_add] at h1
  refine ⟨h1, ?_⟩
  by_cases hc : calls = []
  · subst hc
    have : (0 : Int)
        ≤ pool.maximum_bonus.amount * (cfg.LIMIT_PER_MEMBER_PER_N_BLOCK : Int) := by
      positivity
    simpa [granted_sum] using this
  · rw [← h1]
    exact h3 hc

/-- Witness of the amended C13: the window opened at head block 9 and the call
at head block 18. -/
theorem window_cash_within_cap_witness :
    (⟨"carol", 18, 1, ⟨100, SCORUM_SYMBOL⟩⟩ :
        registration_committee_member_object).already_allocated_cash.amount
      = granted_sum [(18, ⟨100, SCORUM_SYMBOL⟩)] ∧
    granted_sum [(18, ⟨100, SCORUM_SYMBOL⟩)] ≤ 100 * ((1 : Nat) : Int) :=
  window_cash_within_cap limits_example pool_full carol ⟨"carol", 9, 10, ⟨0, SCORUM_SYMBOL⟩⟩
    ⟨"carol", 18, 1, ⟨100, SCORUM_SYMBOL⟩⟩ 9 ⟨100, SCORUM_SYMBOL⟩
    [(18, ⟨100, SCORUM_SYMBOL⟩)] (by decide) (by decide) (by decide) (by decide) (by decide)
    (by decide) (by decide)

/-! ## Pending payout -/

theorem to256_small (t : Nat) (h : t < 2 ^ 64) : to256 t = t := by
  unfold to256 high_bits low_bits
  omega

theorem to256_mono (a b : Nat) (hab : a ≤ b) (hb : b < 2 ^ 128) : to256 a ≤ to256 b := by
  unfold to256 high_bits low_bits
  omega

theorem to256_lt (t : Nat) : to256 t < 2 ^ 130 := by
  unfold to256 high_bits low_bits
  omega

theorem share_of_uint64_small (x : Nat) (h : x < 2 ^ 63) : share_of_uint64 x = (x : Int) := by
  unfold share_of_uint64
  have h1 : x % 2 ^ 64 = x := Nat.mod_eq_of_lt (by omega)
  rw [h1, if_pos h]

theorem set_pending_payout_value (E : Nat → curve_id → Nat) (fund : reward_fund_object)
    (d : discussion) :
    (set_pending_payout E fund d).pending_payout_value =
      if to256 fund.recent_claims > 0 then
        ⟨share_of_uint64 (payout_quotient E fund d.net_rshares),
          fund.activity_reward_balance.symbol⟩
      else d.pending_payout_value := by
  unfold set_pending_payout
  simp only
  split <;> split <;> split <;> rfl

theorem payout_quotient_eq (E : Nat → curve_id → Nat) (fund : reward_fund_object)
    (net_rshares : Int) (P : Nat) (hP : fund.activity_reward_balance.amount = (P : Int))
    (hlt : to256 (vshares_of E fund net_rshares) * P < 2 ^ 256) :
    payout_quotient E fund net_rshares
      = to256 (vshares_of E fund net_rshares) * P / to256 fund.recent_claims := by
  unfold payout_quotient
  simp only [hP]
  have h1 : ((to256 (vshares_of E fund net_rshares) : Int) * (P : Int))
      % ((2 ^ 256 : Nat) : Int)
      = ((to256 (vshares_of E fund net_rshares) * P : Nat) : Int) := by
    rw [← Int.natCast_mul, ← Int.natCast_mod, Nat.mod_eq_of_lt hlt]
  rw [h1, Int.toNat_ofNat]

theorem vshares_of_mono (E : Nat → curve_id → Nat) (fund : reward_fund_object) (a b : Int)
    (hmono : ∀ x y, x ≤ y → E x fund.author_reward_curve ≤ E y fund.author_reward_curve)
    (hE : E b.toNat fund.author_reward_curve < 2 ^ 128) (hab : a ≤ b) :
    vshares_of E fund a ≤ vshares_of E fund b ∧ vshares_of E fund b < 2 ^ 128 := by
  unfold vshares_of
  constructor
  · by_cases ha : a > 0
    · have hb : b > 0 := by omega
      have hle := hmono a.toNat b.toNat (by omega)
      simp only [ha, hb, if_true]
      rw [Nat.mod_eq_of_lt hE, Nat.mod_eq_of_lt (by omega)]
      exact hle
    · simp only [ha, if_false]
      exact Nat.zero_le _
  · split
    · exact Nat.mod_lt _ (Nat.two_pow_pos 128)
    · exact Nat.two_pow_pos 128

/-- C15, as stated, fails: with a pot of `2 ^ 62`, one recent claim and the
linear curve, a content with 4 net rshares has the quotient `2 ^ 64`, which the
cast to a 64 bit amount turns into 0. -/
theorem payout_exact_stated_fails :
    ¬ payout_exact_stated linear_curve fund_large { discussion_example with net_rshares := 4 } := by
  intro h
  have h1 := h (by decide) (by decide)
  revert h1
  decide

/-- C15, amended: for a reward fund with `0 < recent_claims < 2 ^ 64` and a pot
that is not negative, and a content with `net_rshares > 0` whose `vshares` are
below `2 ^ 64` and whose quotient `floor (pot.amount * vshares / recent_claims)`
is below `2 ^ 63`, the pending payout set by `set_pending_payout` is exactly that
quotient in the symbol of the pot, and the product `vshares * pot.amount` is
formed in 256 bits without overflow. -/
theorem pending_payout_exact (E : Nat → curve_id → Nat) (fund : reward_fund_object)
    (d : discussion)
    (hrc0 : 0 < fund.recent_claims) (hrc : fund.recent_claims < 2 ^ 64)
    (hpot : 0 ≤ fund.activity_reward_balance.amount) (hnet : 0 < d.net_rshares)
    (hv : E d.net_rshares.toNat fund.author_reward_curve < 2 ^ 64)
    (hq : fund.activity_reward_balance.amount
        * (E d.net_rshares.toNat fund.author_reward_curve : Int)
        / (fund.recent_claims : Int) < 2 ^ 63) :
    (set_pending_payout E fund d).pending_payout_value
      = ⟨fund.activity_reward_balance.amount
            * (E d.net_rshares.toNat fund.author_reward_curve : Int)
          / (fund.recent_claims : Int),
        fund.activity_reward_balance.symbol⟩ ∧
    (to256 (vshares_of E fund d.net_rshares) : Int) * fund.activity_reward_balance.amount
      < 2 ^ 256 := by
  obtain ⟨P, hP⟩ := Int.eq_ofNat_of_zero_le hpot
  have hvs : vshares_of E fund d.net_rshares
      = E d.net_rshares.toNat fund.author_reward_curve := by
    unfold vshares_of
    rw [if_pos hnet]
    exact Nat.mod_eq_of_lt (by omega)
  have hv256 : to256 (vshares_of E fund d.net_rshares)
      = E d.net_rshares.toNat fund.author_reward_curve := by
    rw [hvs]
    exact to256_small _ hv
  have hrc256 : to256 fund.recent_claims = fund.recent_claims := to256_small _ hrc
  rw [hP] at hq
  have hqn : P * E d.net_rshares.toNat fund.author_reward_curve / fund.recent_claims
      < 2 ^ 63 := by
    exact_mod_cast hq
  have hprod : P * E d.net_rshares.toNat fund.author_reward_curve
      < 2 ^ 63 * fund.recent_claims := by
    rw [Nat.div_lt_iff_lt_mul hrc0] at hqn
    exact hqn
  have hlt : to256 (vshares_of E fund d.net_rshares) * P < 2 ^ 256 := by
    rw [hv256, Nat.mul_comm]
    have : 2 ^ 63 * fund.recent_claims < 2 ^ 63 * 2 ^ 64 :=
      Nat.mul_lt_mul_of_pos_left hrc (by positivity)
    omega
  have hquot := payout_quotient_eq E fund d.net_rshares P hP hlt
  rw [hv256, hrc256, Nat.mul_comm] at hquot
  constructor
  · rw [set_pending_payout_value, hrc256, if_pos hrc0, hquot, share_of_uint64_small _ hqn, hP]
    congr 1
  · rw [hP]
    exact_mod_cast hlt

/-- Witness of the amended C15: pot 1000, 400 recent claims, 30 vshares. -/
theorem pending_payout_exact_witness :
    (set_pending_payout linear_curve fund_example discussion_example).pending_payout_value
      = ⟨1000 * ((30 : Nat) : Int) / ((400 : Nat) : Int), SCORUM_SYMBOL⟩ :=
  (pending_payout_exact linear_curve fund_example discussion_example (by decide) (by decide)
    (by decide) (by decide) (by decide) (by decide)).1

/-- C17, as stated, fails: in a fund without recent claims a discussion that
carries a pending payout of 7 on entry still carries 7 after
`set_pending_payout`. -/
theorem pending_payout_kept_without_claims :
    fund_unclaimed.recent_claims = 0 ∧
      (set_pending_payout linear_curve fund_unclaimed discussion_example).pending_payout_value
        = ⟨7, SCORUM_SYMBOL⟩ ∧
      (set_pending_payout linear_curve fund_unclaimed
        discussion_example).pending_payout_value.amount ≠ 0 := by
  decide

/-- C17, amended: for every reward fund whose `recent_claims` is 0 and every
discussion passed in, `set_pending_payout` leaves the pending payout as it was
on entry; it is zero after the call when it was zero on entry. -/
theorem pending_payout_untouched (E : Nat → curve_id → Nat) (fund : reward_fund_object)
    (d : discussion) (hrc : fund.recent_claims = 0) :
    (set_pending_payout E fund d).pending_payout_value = d.pending_payout_value ∧
    (d.pending_payout_value.amount = 0 →
      (set_pending_payout E fund d).pending_payout_value.amount = 0) := by
  have h0 : to256 fund.recent_claims = 0 := by
    rw [hrc]
    decide
  have hval : (set_pending_payout E fund d).pending_payout_value = d.pending_payout_value := by
    rw [set_pending_payout_value, h0, if_neg (by omega)]
  exact ⟨hval, fun h => by rw [hval]; exact h⟩

/-- Witness of the amended C17. -/
theorem pending_payout_untouched_witness :
    (set_pending_payout linear_curve fund_unclaimed discussion_example).pending_payout_value
      = discussion_example.pending_payout_value :=
  (pending_payout_untouched linear_curve fund_unclaimed discussion_example rfl).1

/-- C18, as stated, fails: the linear curve is monotone, yet with a pot of
`2 ^ 62` and one recent claim the payout for 1 net rshare is `2 ^ 62` and the
payout for 4 net rshares is 0, because the quotient `2 ^ 64` does not fit the
64 bit amount. -/
theorem pending_payout_not_monotone :
    (∀ x y : Nat, x ≤ y → linear_curve x fund_large.author_reward_curve
      ≤ linear_curve y fund_large.author_reward_curve) ∧
    (1 : Int) ≤ 4 ∧
    ¬ pending_payout_amount linear_curve fund_large discussion_example 1
      ≤ pending_payout_amount linear_curve fund_large discussion_example 4 := by
  refine ⟨fun x y h => h, by decide, by decide⟩

/-- C18, amended: for a fixed reward fund state with a pot that is not negative
and fits 63 bits and a monotone reward curve with 128 bit values, and all
`a <= b` such that the quotient computed for `b`, before it is cast to a 64 bit
amount, is below `2 ^ 63`, the pending payout computed for `a` is at most the
one computed for `b`. -/
theorem pending_payout_monotone (E : Nat → curve_id → Nat) (fund : reward_fund_object)
    (d : discussion) (a b : Int)
    (hmono : ∀ x y, x ≤ y → E x fund.author_reward_curve ≤ E y fund.author_reward_curve)
    (hE : E b.toNat fund.author_reward_curve < 2 ^ 128)
    (hpot : 0 ≤ fund.activity_reward_balance.amount)
    (hpot63 : fund.activity_reward_balance.amount < 2 ^ 63)
    (hab : a ≤ b) (hq : payout_quotient E fund b < 2 ^ 63) :
    pending_payout_amount E fund d a ≤ pending_payout_amount E fund d b := by
  unfold pending_payout_amount
  rw [set_pending_payout_value, set_pending_payout_value]
  simp only
  obtain ⟨P, hP⟩ := Int.eq_ofNat_of_zero_le hpot
  have hP63 : P < 2 ^ 63 := by
    rw [hP] at hpot63
    exact_mod_cast hpot63
  obtain ⟨hv, hvb⟩ := vshares_of_mono E fund a b hmono hE hab
  have h256 := to256_mono _ _ hv hvb
  have hlt : ∀ x, to256 (vshares_of E fund x) * P < 2 ^ 256 := by
    intro x
    have h1 := to256_lt (vshares_of E fund x)
    have h2 : to256 (vshares_of E fund x) * P < 2 ^ 130 * 2 ^ 63 :=
      Nat.mul_lt_mul'' h1 hP63
    omega
  have hqa := payout_quotient_eq E fund a P hP (hlt a)
  have hqb := payout_quotient_eq E fund b P hP (hlt b)
  have hle : payout_quotient E fund a ≤ payout_quotient E fund b := by
    rw [hqa, hqb]
    exact Nat.div_le_div_right (Nat.mul_le_mul_right P h256)
  split
  · rw [share_of_uint64_small _ hq, share_of_uint64_small _ (by omega)]
    show ((payout_quotient E fund a : Nat) : Int) ≤ ((payout_quotient E fund b : Nat) : Int)
    exact_mod_cast hle
  · exact le_refl _

/-- Witness of the amended C18: 10 and 30 net rshares in a fund with pot 1000
and 400 recent claims. -/
theorem pending_payout_monotone_witness :
    pending_payout_amount linear_curve fund_example discussion_example 10
      ≤ pending_payout_amount linear_curve fund_example discussion_example 30 :=
  pending_payout_monotone linear_curve fund_example discussion_example 10 30
    (fun _ _ h => h) (by decide) (by decide) (by decide) (by decide) (by decide)

/-! ## The registration pool task and the committee lookups -/

theorem on_apply_after_failure (cfg : limits) (db db' : database)
    (ctx : registration_pool_context) (e : failure)
    (hctx : ctx.last_result = true) (h : allocate_cash cfg db "" = (.error e, db')) :
    registration_pool_task.on_apply cfg db ctx
      = .ok { db := db'
              ctx := ctx
              create_vesting_calls := [(ctx.beneficiary, ⟨0, SCORUM_SYMBOL⟩)] } := by
  unfold registration_pool_task.on_apply
  simp [hctx, h]

/-- C19, evaluated on a failing call: the context enters `on_apply` with the
result `true` that `FC_ASSERT(ctx.last_result())` demands, the pool has no
schedule so that `allocate_cash` fails, the exception is caught and logged, the
result of the context is left `true`, and `create_vesting` is called for the
beneficiary with the default asset. -/
theorem on_apply_swallows_failure :
    (allocate_cash limits_example db_unscheduled "").1 = .error failure.invalid_schedule ∧
      registration_pool_task.on_apply limits_example db_unscheduled ⟨"dave", true⟩
        = .ok { db := db_unscheduled
                ctx := ⟨"dave", true⟩
                create_vesting_calls := [("dave", ⟨0, SCORUM_SYMBOL⟩)] } := by
  decide

/-- C20: `lookup_registration_committee_members` and
`lookup_development_committee_members` fail for every limit above
`LOOKUP_LIMIT = 1000` and for every limit up to 1000 return what the roster
lookup returns for the same lower bound name and limit. -/
theorem lookup_committee_members_limit
    (lookup_members : committee_index → String → Nat → List account_name_type)
    (lower_bound_name : String) (limit : Nat) :
    LOOKUP_LIMIT = 1000 ∧
    (1000 < limit →
      lookup_registration_committee_members lookup_members lower_bound_name limit
          = .error lookup_failure.limit_exceeded ∧
        lookup_development_committee_members lookup_members lower_bound_name limit
          = .error lookup_failure.limit_exceeded) ∧
    (limit ≤ 1000 →
      lookup_registration_committee_members lookup_members lower_bound_name limit
          = .ok (lookup_members committee_index.registration_committee_member_index
            lower_bound_name limit) ∧
        lookup_development_committee_members lookup_members lower_bound_name limit
          = .ok (lookup_members committee_index.dev_committee_member_index
            lower_bound_name limit)) := by
  refine ⟨rfl, ?_, ?_⟩
  · intro h
    have hn : ¬ limit ≤ LOOKUP_LIMIT := by
      unfold LOOKUP_LIMIT
      omega
    unfold lookup_registration_committee_members lookup_development_committee_members
    simp only [hn, not_false_eq_true, if_true, and_self]
  · intro h
    have hn : limit ≤ LOOKUP_LIMIT := by
      unfold LOOKUP_LIMIT
      omega
    unfold lookup_registration_committee_members lookup_development_committee_members
    simp only [hn, not_true_eq_false, if_false, and_self]

/-! ## The evaluator, the width of the arithmetic and attribution -/

/-- C26: `registration_pool_evaluator::do_apply` fails before it calls
`allocate_cash`, with the whole state as before, whenever the registration pool
does not exist, or its balance is not positive, or the creator of the operation
is not a registration committee member. -/
theorem do_apply_fails_before_allocation (cfg : limits) (st : evaluator_state)
    (o : account_create_by_committee_operation)
    (h : st.db.pool = none ∨ (∃ pool, st.db.pool = some pool ∧ pool.balance.amount ≤ 0) ∨
      get_member st.db.members o.creator = none) :
    ∃ e, registration_pool_evaluator.do_apply cfg st o = (.error e, st) ∧
      ∀ a, e ≠ evaluator_failure.allocation a := by
  unfold registration_pool_evaluator.do_apply
  split
  · exact ⟨_, rfl, fun a h' => by cases h'⟩
  · split
    · exact ⟨_, rfl, fun a h' => by cases h'⟩
    · split
      · exact ⟨_, rfl, fun a h' => by cases h'⟩
      · split
        · exact ⟨_, rfl, fun a h' => by cases h'⟩
        · cases hp : st.db.pool with
          | none => exact ⟨_, rfl, fun a h' => by cases h'⟩
          | some pool =>
            simp only
            by_cases hb : pool.balance.amount > 0
            · simp only [hb, not_true_eq_false, if_false]
              have hm : get_member st.db.members o.creator = none := by
                rcases h with h | ⟨pool', hp', hb'⟩ | h
                · rw [hp] at h
                  cases h
                · rw [hp] at hp'
                  cases hp'
                  omega
                · exact h
              simp only [hm, Option.isNone_none, if_true]
              exact ⟨_, rfl, fun a h' => by cases h'⟩
            · simp only [hb, not_false_eq_true, if_true]
              exact ⟨_, rfl, fun a h' => by cases h'⟩

/-- Witness of C26: a pool whose balance is used up. -/
theorem do_apply_fails_before_allocation_witness :
    ∃ e, registration_pool_evaluator.do_apply limits_example evaluator_state_exhausted
        operation_example = (.error e, evaluator_state_exhausted) ∧
      ∀ a, e ≠ evaluator_failure.allocation a :=
  do_apply_fails_before_allocation limits_example evaluator_state_exhausted operation_example
    (Or.inr (Or.inl ⟨{ pool_example with balance := ⟨0, SCORUM_SYMBOL⟩ }, rfl, by decide⟩))

/-- C27, evaluated on the 128 bit value with high 64 bits 1 and low 64 bits 0:
`to256` returns `2 ^ 65`, not the value `1 * 2 ^ 64 + 0`, because the high bits
are shifted by 65. -/
theorem to256_changes_value :
    high_bits (2 ^ 64) = 1 ∧ low_bits (2 ^ 64) = 0 ∧ to256 (2 ^ 64) = 2 ^ 65 ∧
      to256 (2 ^ 64) ≠ high_bits (2 ^ 64) * 2 ^ 64 + low_bits (2 ^ 64) := by
  decide

/-- C28: for every reward fund with `recent_claims > 0` and a pot that is not
negative and fits 63 bits, and every content whose `vshares` are at most
`recent_claims`, the pending payout computed by `set_pending_payout` is not
negative and at most `pot.amount`. -/
theorem pending_payout_within_pot (E : Nat → curve_id → Nat) (fund : reward_fund_object)
    (d : discussion)
    (hrc0 : 0 < fund.recent_claims) (hrc : fund.recent_claims < 2 ^ 128)
    (hpot : 0 ≤ fund.activity_reward_balance.amount)
    (hpot63 : fund.activity_reward_balance.amount < 2 ^ 63)
    (hv : vshares_of E fund d.net_rshares ≤ fund.recent_claims) :
    0 ≤ (set_pending_payout E fund d).pending_payout_value.amount ∧
      (set_pending_payout E fund d).pending_payout_value.amount
        ≤ fund.activity_reward_balance.amount := by
  obtain ⟨P, hP⟩ := Int.eq_ofNat_of_zero_le hpot
  have hP63 : P < 2 ^ 63 := by
    rw [hP] at hpot63
    exact_mod_cast hpot63
  have h256 := to256_mono _ _ hv hrc
  have hpos : 0 < to256 fund.recent_claims := by
    unfold to256 high_bits low_bits
    omega
  have hlt : to256 (vshares_of E fund d.net_rshares) * P < 2 ^ 256 := by
    have h1 := to256_lt (vshares_of E fund d.net_rshares)
    have h2 : to256 (vshares_of E fund d.net_rshares) * P < 2 ^ 130 * 2 ^ 63 :=
      Nat.mul_lt_mul'' h1 hP63
    omega
  have hq := payout_quotient_eq E fund d.net_rshares P hP hlt
  have hle : payout_quotient E fund d.net_rshares ≤ P := by
    rw [hq]
    calc to256 (vshares_of E fund d.net_rshares) * P / to256 fund.recent_claims
        ≤ to256 fund.recent_claims * P / to256 fund.recent_claims :=
          Nat.div_le_div_right (Nat.mul_le_mul_right P h256)
      _ = P := Nat.mul_div_cancel_left P hpos
  rw [set_pending_payout_value, if_pos hpos, hP]
  simp only
  rw [share_of_uint64_small _ (by omega)]
  exact ⟨by positivity, by exact_mod_cast hle⟩

/-- Witness of C28: 30 vshares against 400 recent claims and a pot of 1000. -/
theorem pending_payout_within_pot_witness :
    0 ≤ (set_pending_payout linear_curve fund_example discussion_example).pending_payout_value.amount ∧
      (set_pending_payout linear_curve fund_example
        discussion_example).pending_payout_value.amount ≤ 1000 :=
  pending_payout_within_pot linear_curve fund_example discussion_example (by decide) (by decide)
    (by decide) (by decide) (by decide)

/-- C29: in `take_by_committee_member` the 32 bit arithmetic does not wrap:
under the asserted `last_allocated_block <= head_block_number` the difference
`head_block_num - last_allocated_block` is the true difference, the decayed
allowance is the true difference `per_n_block_remain - pass_blocks` when it is
taken, and whenever the rate limit branch is entered (decayed allowance
positive) `pass_blocks + 1` is at most the old `per_n_block_remain`, below
`2 ^ 32`, and computed without wrapping. -/
theorem take_by_committee_member_no_wrap (head_block_num : Nat)
    (member : registration_committee_member_object)
    (hh : head_block_num < 2 ^ 32) (hr : member.per_n_block_remain < 2 ^ 32)
    (hl : member.last_allocated_block ≤ head_block_num) :
    pass_blocks head_block_num member
        = head_block_num
          - (if member.last_allocated_block = 0 then head_block_num
            else member.last_allocated_block) ∧
      (¬ pass_blocks head_block_num member > member.per_n_block_remain →
        decayed_remain head_block_num member + pass_blocks head_block_num member
          = member.per_n_block_remain) ∧
      (decayed_remain head_block_num member > 0 →
        pass_blocks head_block_num member + 1 ≤ member.per_n_block_remain ∧
          pass_blocks head_block_num member + 1 < 2 ^ 32 ∧
          u32_add (pass_blocks head_block_num member) 1
            = pass_blocks head_block_num member + 1) := by
  have hpass := pass_blocks_eq head_block_num member hh hl
  have hdec := decayed_remain_eq head_block_num member hr
  refine ⟨?_, ?_, ?_⟩
  · rw [hpass]
    split <;> omega
  · intro hle
    rw [hdec]
    omega
  · intro hpos
    rw [hdec] at hpos
    refine ⟨by omega, by omega, ?_⟩
    unfold u32_add
    exact Nat.mod_eq_of_lt (by omega)

/-- Witness of C29: the member allocated to in block 4, seen at head block 9. -/
theorem take_by_committee_member_no_wrap_witness :
    pass_blocks 9 bob = 9 - 4 ∧ decayed_remain 9 bob + pass_blocks 9 bob = 10 ∧
      u32_add (pass_blocks 9 bob) 1 = pass_blocks 9 bob + 1 := by
  have h := take_by_committee_member_no_wrap 9 bob (by decide) (by decide) (by decide)
  exact ⟨h.1, h.2.1 (by decide), (h.2.2 (by decide)).2.2⟩

/-- C30: attribution does not influence the grant: if `allocate_cash` for a
committee member succeeds, then `allocate_cash` without a member on the same
state returns the same amount and leaves the same pool, with the same balance and
`already_allocated_count`; and `allocate_cash` without a member leaves every
committee member record unchanged, whether it succeeds or fails. -/
theorem attribution_does_not_change_grant (cfg : limits) (db : database)
    (name : account_name_type) :
    (∀ g db', allocate_cash cfg db name = (.ok g, db') →
      (allocate_cash cfg db "").1 = .ok g ∧ (allocate_cash cfg db "").2.pool = db'.pool) ∧
    (allocate_cash cfg db "").2.members = db.members := by
  constructor
  · intro g db' hok
    cases hp : db.pool with
    | none =>
      unfold allocate_cash at hok
      simp [hp] at hok
    | some pool =>
      obtain ⟨r, hr, hpos, hbal, hsym, hg, hdb, _⟩ :=
        allocate_cash_success_state cfg db name pool g db' hp hok
      have hrun := allocate_cash_after_grant cfg db "" pool r hp hr hpos hbal hsym
      simp only [ne_eq, not_true_eq_false, if_false] at hrun
      rw [hrun, hg, hdb]
      exact ⟨rfl, rfl⟩
  · cases hres : allocate_cash cfg db "" with
    | mk res db' =>
      cases res with
      | error e => exact (allocate_cash_failure_members cfg db "" e db' hres).1
      | ok g =>
        cases hp : db.pool with
        | none =>
          unfold allocate_cash at hres
          simp [hp] at hres
        | some pool =>
          obtain ⟨_, _, _, _, _, _, _, _, hmem, _⟩ :=
            allocate_cash_success_state cfg db "" pool g db' hp hres
          exact hmem rfl

/-! ## Discussion queries -/

theorem set_pending_payout_fields (E : Nat → curve_id → Nat) (fund : reward_fund_object)
    (d : discussion) :
    (set_pending_payout E fund d).id = d.id ∧
      (set_pending_payout E fund d).net_rshares = d.net_rshares ∧
      (set_pending_payout E fund d).author = d.author ∧
      (set_pending_payout E fund d).permlink = d.permlink ∧
      (set_pending_payout E fund d).parent_author = d.parent_author := by
  unfold set_pending_payout
  simp only
  split <;> split <;> split <;> exact ⟨rfl, rfl, rfl, rfl, rfl⟩

theorem get_discussion_fields (st : database_api_state) (id : comment_id_type)
    (truncate_body : Nat) (d : discussion)
    (h : get_discussion st id truncate_body = .ok d) :
    d.id = id ∧ ∃ c ∈ st.comments, c.id = id ∧ d.net_rshares = c.net_rshares ∧
      d.author = c.author ∧ d.permlink = c.permlink := by
  unfold get_discussion at h
  split at h
  · cases h
  · rename_i c hfind
    have hmem : c ∈ st.comments := List.mem_of_find?_eq_some hfind
    have hid : c.id = id := by
      have := List.find?_some hfind
      simpa using this
    obtain ⟨h1, h2, h3, h4, _⟩ := set_pending_payout_fields st.evaluate_reward_curve
      st.reward_fund (discussion_of_comment c)
    have hd : d.id = c.id ∧ d.net_rshares = c.net_rshares ∧ d.author = c.author ∧
        d.permlink = c.permlink := by
      simp only at h
      split at h
      · split at h
        · cases h
          exact ⟨h1, h2, h3, h4⟩
        · cases h
          exact ⟨h1, h2, h3, h4⟩
      · cases h
        exact ⟨h1, h2, h3, h4⟩
    exact ⟨hd.1.trans hid, c, hmem, hid, hd.2.1, hd.2.2.1, hd.2.2.2⟩

theorem get_discussions_loop_mem (st : database_api_state) (tag : String)
    (parent : comment_id_type) (truncate_body : Nat) (filter exit : discussion → Bool)
    (tag_exit : tag_object → Bool) (ignore_parent : Bool) (max_itr_count : Nat)
    (entries : List tag_object) :
    ∀ (count itr_count : Nat) (d : discussion),
      d ∈ get_discussions_loop st tag parent truncate_body filter exit tag_exit ignore_parent
        max_itr_count entries count itr_count →
      filter d = false ∧ ∃ t ∈ entries, t.tag = tag ∧ ∃ d0,
        get_discussion st t.comment truncate_body = .ok d0 ∧
        d = { d0 with promoted := ⟨t.promoted_balance, SCORUM_SYMBOL⟩ } := by
  induction entries with
  | nil =>
    intro count itr_count d hd
    simp [get_discussions_loop] at hd
  | cons t rest ih =>
    intro count itr_count d hd
    have lift : ∀ {c i : Nat},
        d ∈ get_discussions_loop st tag parent truncate_body filter exit tag_exit
          ignore_parent max_itr_count rest c i →
        filter d = false ∧ ∃ t' ∈ t :: rest, t'.tag = tag ∧ ∃ d0,
          get_discussion st t'.comment truncate_body = .ok d0 ∧
          d = { d0 with promoted := ⟨t'.promoted_balance, SCORUM_SYMBOL⟩ } := by
      intro c i hmem
      obtain ⟨hf, t', ht', hrest⟩ := ih c i d hmem
      exact ⟨hf, t', List.mem_cons_of_mem _ ht', hrest⟩
    unfold get_discussions_loop at hd
    split at hd
    · simp at hd
    · split at hd
      · simp at hd
      · split at hd
        · simp at hd
        · rename_i hcheck
          have htag : t.tag = tag := by
            by_contra hne
            exact hcheck (Or.inl hne)
          split at hd
          · exact lift hd
          · rename_i d0 hget
            simp only at hd
            split at hd
            · exact lift hd
            · rename_i hfilter
              split at hd
              · simp at hd
              · rcases List.mem_cons.mp hd with hhead | htail
                · refine ⟨?_, t, List.mem_cons_self _ _, htag, d0, hget, hhead⟩
                  rw [hhead]
                  simpa using hfilter
                · exact lift htail

theorem get_discussions_loop_length (st : database_api_state) (tag : String)
    (parent : comment_id_type) (truncate_body : Nat) (filter exit : discussion → Bool)
    (tag_exit : tag_object → Bool) (ignore_parent : Bool) (max_itr_count : Nat)
    (entries : List tag_object) :
    ∀ (count itr_count : Nat),
      (get_discussions_loop st tag parent truncate_body filter exit tag_exit ignore_parent
        max_itr_count entries count itr_count).length ≤ count := by
  induction entries with
  | nil =>
    intro count itr_count
    simp [get_discussions_loop]
  | cons t rest ih =>
    intro count itr_count
    unfold get_discussions_loop
    split
    · simp
    · rename_i hcount
      split
      · simp
      · split
        · simp
        · split
          · exact ih count (itr_count + 1)
          · simp only
            split
            · exact ih count (itr_count + 1)
            · split
              · simp
              · have := ih (count - 1) (itr_count + 1)
                simp only [List.length_cons]
                omega

theorem get_discussions_loop_no_tag (st : database_api_state) (tag : String)
    (parent : comment_id_type) (truncate_body : Nat) (filter exit : discussion → Bool)
    (tag_exit : tag_object → Bool) (ignore_parent : Bool) (max_itr_count : Nat)
    (entries : List tag_object) (count itr_count : Nat)
    (h : ∀ t ∈ entries, t.tag ≠ tag) :
    get_discussions_loop st tag parent truncate_body filter exit tag_exit ignore_parent
      max_itr_count entries count itr_count = [] := by
  cases entries with
  | nil => simp [get_discussions_loop]
  | cons t rest =>
    have ht : t.tag ≠ tag := h t (List.mem_cons_self _ _)
    unfold get_discussions_loop
    simp [ht]

theorem get_discussions_ok (st : database_api_state) (query : discussion_query) (tag : String)
    (parent : comment_id_type) (tidx : List tag_object) (tidx_itr : Nat) (truncate_body : Nat)
    (filter exit : discussion → Bool) (tag_exit : tag_object → Bool) (ignore_parent : Bool)
    (result : List discussion)
    (h : get_discussions st query tag parent tidx tidx_itr truncate_body filter exit tag_exit
      ignore_parent = .ok result) :
    ∃ itr, result = get_discussions_loop st tag parent truncate_body filter exit tag_exit
      ignore_parent (10 * query.limit % 2 ^ 32) (tidx.drop itr) query.limit 0 := by
  unfold get_discussions at h
  simp only at h
  split at h
  · cases h
  · rename_i itr _
    cases h
    exact ⟨itr, rfl⟩

/-- C21: every discussion returned by `get_discussions_by_trending` has
`net_rshares > 0`, the `net_rshares` of the comment it was built from: a post
that has received no votes is never returned, whatever tag is queried. -/
theorem trending_returns_voted_only (st : database_api_state) (query : discussion_query)
    (result : List discussion) (h : get_discussions_by_trending st query = .ok result) :
    ∀ d ∈ result, 0 < d.net_rshares ∧
      ∃ c ∈ st.comments, c.id = d.id ∧ c.net_rshares = d.net_rshares := by
  intro d hd
  unfold get_discussions_by_trending at h
  split at h
  · cases h
  · split at h
    · cases h
    · obtain ⟨itr, hres⟩ := get_discussions_ok _ _ _ _ _ _ _ _ _ _ _ _ h
      rw [hres] at hd
      obtain ⟨hf, t, _, _, d0, hget, hd0⟩ := get_discussions_loop_mem _ _ _ _ _ _ _ _ _ _ _ _ d hd
      obtain ⟨hid, c, hc, hcid, hnet, _⟩ := get_discussion_fields st t.comment _ d0 hget
      have hpos : 0 < d.net_rshares := by
        simp only [decide_eq_false_iff_not, not_le] at hf
        exact hf
      refine ⟨hpos, c, hc, ?_, ?_⟩
      · rw [hd0]
        exact hcid.trans hid.symm
      · rw [hd0]
        exact hnet.symm

/-- Witness of C21: of the four posts with the tag the two with the highest
trending value are returned; the post without votes is not among them. -/
theorem trending_returns_voted_only_witness :
    (results_of (get_discussions_by_trending api_state_example query_example)).length = 2 ∧
      ∀ d ∈ results_of (get_discussions_by_trending api_state_example query_example),
        0 < d.net_rshares ∧
          ∃ c ∈ api_state_example.comments, c.id = d.id ∧ c.net_rshares = d.net_rshares :=
  ⟨by decide,
    trending_returns_voted_only api_state_example query_example
      (results_of (get_discussions_by_trending api_state_example query_example)) (by decide)⟩

/-- C22: for every query and every content of the index `get_discussions`
returns at most `query.limit` discussions. -/
theorem get_discussions_at_most_limit (st : database_api_state) (query : discussion_query)
    (tag : String) (parent : comment_id_type) (tidx : List tag_object) (tidx_itr : Nat)
    (truncate_body : Nat) (filter exit : discussion → Bool) (tag_exit : tag_object → Bool)
    (ignore_parent : Bool) (result : List discussion)
    (h : get_discussions st query tag parent tidx tidx_itr truncate_body filter exit tag_exit
      ignore_parent = .ok result) :
    result.length ≤ query.limit := by
  obtain ⟨itr, hres⟩ := get_discussions_ok _ _ _ _ _ _ _ _ _ _ _ _ h
  rw [hres]
  exact get_discussions_loop_length _ _ _ _ _ _ _ _ _ _ _ _

/-- Witness of C22: three posts with the tag pass the filter, two are returned
for the limit 2. -/
theorem get_discussions_at_most_limit_witness :
    (results_of (get_discussions api_state_example query_example "c" 0 tags_by_trending 0 5
      (fun c => decide (c.net_rshares ≤ 0)) (fun _ => false) (fun _ => false) false)).length
      ≤ 2 :=
  get_discussions_at_most_limit api_state_example query_example "c" 0 tags_by_trending 0 5
    (fun c => decide (c.net_rshares ≤ 0)) (fun _ => false) (fun _ => false) false
    (results_of (get_discussions api_state_example query_example "c" 0 tags_by_trending 0 5
      (fun c => decide (c.net_rshares ≤ 0)) (fun _ => false) (fun _ => false) false))
    (by decide)

/-- C25: every discussion returned by `get_discussions` was built from the
comment of a tag index entry whose tag equals the queried tag (which the callers
pass in lower case); when no entry of the index carries the queried tag the
result is empty. -/
theorem get_discussions_only_tagged (st : database_api_state) (query : discussion_query)
    (tag : String) (parent : comment_id_type) (tidx : List tag_object) (tidx_itr : Nat)
    (truncate_body : Nat) (filter exit : discussion → Bool) (tag_exit : tag_object → Bool)
    (ignore_parent : Bool) (result : List discussion)
    (h : get_discussions st query tag parent tidx tidx_itr truncate_body filter exit tag_exit
      ignore_parent = .ok result) :
    (∀ d ∈ result, ∃ t ∈ tidx, t.tag = tag ∧ t.comment = d.id) ∧
    ((∀ t ∈ tidx, t.tag ≠ tag) → result = []) := by
  obtain ⟨itr, hres⟩ := get_discussions_ok _ _ _ _ _ _ _ _ _ _ _ _ h
  constructor
  · intro d hd
    rw [hres] at hd
    obtain ⟨_, t, ht, htag, d0, hget, hd0⟩ :=
      get_discussions_loop_mem _ _ _ _ _ _ _ _ _ _ _ _ d hd
    obtain ⟨hid, _⟩ := get_discussion_fields st t.comment _ d0 hget
    refine ⟨t, List.mem_of_mem_drop ht, htag, ?_⟩
    rw [hd0]
    exact hid.symm
  · intro hno
    rw [hres]
    exact get_discussions_loop_no_tag _ _ _ _ _ _ _ _ _ _ _ _
      (fun t ht => hno t (List.mem_of_mem_drop ht))

/-- Witness of C25: a query for the tag `c` and a query for a tag no post
carries. -/
theorem get_discussions_only_tagged_witness :
    (∀ d ∈ results_of (get_discussions api_state_example query_example "c" 0 tags_by_trending
        0 5 (fun c => decide (c.net_rshares ≤ 0)) (fun _ => false) (fun _ => false) false),
      ∃ t ∈ tags_by_trending, t.tag = "c" ∧ t.comment = d.id) ∧
    results_of (get_discussions api_state_example query_example "e" 0 tags_by_trending
        0 5 (fun c => decide (c.net_rshares ≤ 0)) (fun _ => false) (fun _ => false) false)
      = [] :=
  ⟨(get_discussions_only_tagged api_state_example query_example "c" 0 tags_by_trending 0 5
      (fun c => decide (c.net_rshares ≤ 0)) (fun _ => false) (fun _ => false) false
      (results_of (get_discussions api_state_example query_example "c" 0 tags_by_trending 0 5
        (fun c => decide (c.net_rshares ≤ 0)) (fun _ => false) (fun _ => false) false))
      (by decide)).1,
    (get_discussions_only_tagged api_state_example query_example "e" 0 tags_by_trending 0 5
      (fun c => decide (c.net_rshares ≤ 0)) (fun _ => false) (fun _ => false) false
      (results_of (get_discussions api_state_example query_example "e" 0 tags_by_trending 0 5
        (fun c => decide (c.net_rshares ≤ 0)) (fun _ => false) (fun _ => false) false))
      (by decide)).2 (by decide)⟩

theorem start_entry_spec (cidx : List tag_object) (start : comment_id_type) (tag : String)
    (t : tag_object) (h : start_entry cidx start tag = some t) :
    t.comment = start ∧ t.tag = tag := by
  unfold start_entry at h
  have h1 := List.find?_some h
  have h2 := List.mem_takeWhile_imp (List.mem_of_find?_eq_some h)
  exact ⟨by simpa using h2, by simpa using h1⟩

/-- C23, as stated, fails: `start_author` and `start_permlink` name the post
`pl4` of `bob`, which has an entry with the queried tag `c` and is not filtered
out, yet nothing is returned when the query asks for the parent 7 while the
entry has the parent 0, when the limit is 0, or when the exit predicate holds
for the post. -/
theorem pagination_start_item_not_returned :
    comment_service_get api_state_example.comments "bob" "pl4"
        = .ok { id := 4, author := "bob", permlink := "pl4", parent_author := "",
                net_rshares := 20, body := "body4" } ∧
      start_entry api_state_example.by_comment 4 "c"
        = some { id := 2, tag := "c", parent := 0, comment := 4, promoted_balance := 0 } ∧
      (get_discussion api_state_example 4 5).map (fun d => decide (d.net_rshares ≤ 0))
        = .ok false ∧
      get_discussions api_state_example
          { query_example with start_author := some "bob", start_permlink := some "pl4" }
          "c" 7 tags_by_trending 0 5 (fun c => decide (c.net_rshares ≤ 0)) (fun _ => false)
          (fun _ => false) false = .ok [] ∧
      get_discussions api_state_example
          { query_example with
            limit := 0, start_author := some "bob", start_permlink := some "pl4" }
          "c" 0 tags_by_trending 0 5 (fun c => decide (c.net_rshares ≤ 0)) (fun _ => false)
          (fun _ => false) false = .ok [] ∧
      get_discussions api_state_example
          { query_example with start_author := some "bob", start_permlink := some "pl4" }
          "c" 0 tags_by_trending 0 5 (fun c => decide (c.net_rshares ≤ 0)) (fun _ => true)
          (fun _ => false) false = .ok [] := by
  decide

/-- C23, amended: pagination is inclusive of the start item: when `start_author`
and `start_permlink` name a post that has an entry with the queried tag in the
index and whose discussion is built and not filtered out, and moreover the limit
is positive with `10 * limit` below `2 ^ 32`, the entry has the queried parent
or the parent is ignored, and no exit predicate holds for the post or its entry,
then the first discussion returned by `get_discussions` is that post, followed by
what the loop returns for the entries that come after it in the index order. -/
theorem pagination_starts_at_start_item (st : database_api_state) (query : discussion_query)
    (tag : String) (parent : comment_id_type) (tidx : List tag_object) (tidx_itr : Nat)
    (truncate_body : Nat) (filter exit : discussion → Bool) (tag_exit : tag_object → Bool)
    (ignore_parent : Bool) (author permlink : String) (c : comment_object) (t : tag_object)
    (post : List tag_object) (d : discussion)
    (ha : query.start_author = some author) (hp : query.start_permlink = some permlink)
    (hc : comment_service_get st.comments author permlink = .ok c)
    (ht : start_entry st.by_comment c.id tag = some t)
    (hpos : tidx.drop (iterator_to tidx t) = t :: post)
    (hd : get_discussion st t.comment truncate_body = .ok d)
    (hf : filter { d with promoted := ⟨t.promoted_balance, SCORUM_SYMBOL⟩ } = false)
    (hlimit : 0 < query.limit) (hlimit32 : 10 * query.limit < 2 ^ 32)
    (hparent : ignore_parent = true ∨ t.parent = parent)
    (hexit : exit { d with promoted := ⟨t.promoted_balance, SCORUM_SYMBOL⟩ } = false)
    (htag_exit : tag_exit t = false) :
    t.tag = tag ∧ d.id = c.id ∧
    get_discussions st query tag parent tidx tidx_itr truncate_body filter exit tag_exit
        ignore_parent
      = .ok
        ({ d with promoted := ⟨t.promoted_balance, SCORUM_SYMBOL⟩ } ::
          get_discussions_loop st tag parent truncate_body filter exit tag_exit
            ignore_parent (10 * query.limit) post (query.limit - 1) 1) := by
  obtain ⟨hcomment, htag⟩ := start_entry_spec _ _ _ _ ht
  obtain ⟨hid, _⟩ := get_discussion_fields st t.comment _ d hd
  refine ⟨htag, hid.trans hcomment, ?_⟩
  unfold get_discussions
  simp only [ha, hp, hc, ht, hpos]
  congr 1
  rw [Nat.mod_eq_of_lt hlimit32]
  have hm : 10 * query.limit ≠ 0 := by omega
  generalize 10 * query.limit = max_itr_count at hm
  rw [get_discussions_loop]
  have hl : query.limit ≠ 0 := by omega
  have hpos' : query.limit > 0 := hlimit
  have hm' : ¬ 0 + 1 > max_itr_count := by omega
  have hpar : ¬ (ignore_parent = false ∧ ¬ t.parent = parent) := by
    rintro ⟨h1, h2⟩
    rcases hparent with h | h
    · rw [h1] at h
      cases h
    · exact h2 h
  simp only [hpos', not_true_eq_false, if_false, hm', hl, hm, false_or, htag, ne_eq,
    not_true_eq_false, hd, hf, hexit, htag_exit, Bool.false_eq_true, zero_add]
  simp [hpar]

/-- Witness of the amended C23: the second page of the query for the tag `c` starts with
the last post of the first page. -/
theorem pagination_starts_at_start_item_witness :
    (results_of (get_discussions api_state_example
        { query_example with start_author := some "bob", start_permlink := some "pl4" }
        "c" 0 tags_by_trending 0 5 (fun c => decide (c.net_rshares ≤ 0)) (fun _ => false)
        (fun _ => false) false)).map (fun d => (d.author, d.permlink))
      = [("bob", "pl4"), ("alice", "pl1")] := by
  have h := (pagination_starts_at_start_item api_state_example
    { query_example with start_author := some "bob", start_permlink := some "pl4" }
    "c" 0 tags_by_trending 0 5 (fun c => decide (c.net_rshares ≤ 0)) (fun _ => false)
    (fun _ => false) false "bob" "pl4"
    { id := 4, author := "bob", permlink := "pl4", parent_author := "",
      net_rshares := 20, body := "body4" }
    { id := 2, tag := "c", parent := 0, comment := 4, promoted_balance := 0 }
    [ { id := 3, tag := "c", parent := 0, comment := 1, promoted_balance := 0 },
      { id := 4, tag := "c", parent := 0, comment := 2, promoted_balance := 0 },
      { id := 5, tag := "d", parent := 0, comment := 2, promoted_balance := 0 } ]
    { net_rshares := 20, pending_payout_value := ⟨50, SCORUM_SYMBOL⟩, parent_author := "",
      body := "body4", id := 4, author := "bob", permlink := "pl4", body_length := 5 }
    rfl rfl (by decide) (by decide) (by decide) (by decide) (by decide) (by decide) (by decide)
    (by decide) (by decide) (by decide)).2.2
  rw [h]
  decide

theorem substr_utf8_spec (l : List Char) :
    ∀ (n : Nat) (cs : List Char), substr_utf8 l n = some cs →
      cs <+: l ∧ (n ≤ String.utf8Len l → String.utf8Len cs = n) := by
  induction l with
  | nil =>
    intro n cs h
    cases n with
    | zero =>
      simp only [substr_utf8, Option.some.injEq] at h
      subst h
      exact ⟨List.prefix_refl _, fun _ => rfl⟩
    | succ n =>
      simp only [substr_utf8, Option.some.injEq] at h
      subst h
      refine ⟨List.prefix_refl _, fun hle => ?_⟩
      simp only [String.utf8Len_nil] at hle
      omega
  | cons c rest ih =>
    intro n cs h
    cases n with
    | zero =>
      simp only [substr_utf8, Option.some.injEq] at h
      subst h
      exact ⟨List.nil_prefix, fun _ => rfl⟩
    | succ n =>
      simp only [substr_utf8] at h
      split at h
      · rename_i hle
        cases hr : substr_utf8 rest (n + 1 - c.utf8Size) with
        | none => simp [hr] at h
        | some r =>
          simp only [hr, Option.map_some', Option.some.injEq] at h
          subst h
          obtain ⟨h1, h2⟩ := ih _ r hr
          refine ⟨(List.prefix_cons_inj c).mpr h1, fun hn => ?_⟩
          simp only [String.utf8Len_cons] at hn ⊢
          have := h2 (by omega)
          omega
      · cases h

theorem set_pending_payout_body (E : Nat → curve_id → Nat) (fund : reward_fund_object)
    (d : discussion) (hroot : d.body.utf8ByteSize ≤ 1024 * 128)
    (hcomment : d.parent_author.utf8ByteSize > 0 → d.body.utf8ByteSize ≤ 1024 * 16) :
    (set_pending_payout E fund d).body = d.body := by
  unfold set_pending_payout
  simp only
  split
  · have h1 : ¬ d.body.utf8ByteSize > 1024 * 128 := by omega
    simp only [h1, if_false]
    split
    · rename_i h2
      have := hcomment h2.1
      omega
    · rfl
  · have h1 : ¬ d.body.utf8ByteSize > 1024 * 128 := by omega
    simp only [h1, if_false]
    split
    · rename_i h2
      have := hcomment h2.1
      omega
    · rfl

theorem set_pending_payout_body_pruned (E : Nat → curve_id → Nat) (fund : reward_fund_object)
    (d : discussion) (hroot : d.body.utf8ByteSize > 1024 * 128)
    (hparent : d.parent_author = "") :
    (set_pending_payout E fund d).body = "body pruned due to size" := by
  have hp : ("" : String).utf8ByteSize = 0 := rfl
  unfold set_pending_payout
  simp only
  split <;> simp [hroot, hparent, hp]

theorem utf8Len_replicate (n : Nat) : String.utf8Len (List.replicate n 'a') = n := by
  induction n with
  | zero => rfl
  | succ k ih =>
    rw [List.replicate_succ, String.utf8Len_cons, ih]
    rfl

theorem substr_utf8_all (l : List Char) :
    ∀ n : Nat, String.utf8Len l ≤ n → substr_utf8 l n = some l := by
  induction l with
  | nil =>
    intro n _
    cases n <;> rfl
  | cons c rest ih =>
    intro n hle
    simp only [String.utf8Len_cons] at hle
    have hc : 0 < c.utf8Size := Char.utf8Size_pos c
    cases n with
    | zero => omega
    | succ n =>
      have h1 : c.utf8Size ≤ n + 1 := by omega
      simp only [substr_utf8, h1, if_true, ih (n + 1 - c.utf8Size) (by omega), Option.map_some']

theorem get_discussion_of_pruned (st : database_api_state) (id : comment_id_type)
    (truncate_body : Nat) (c : comment_object)
    (hfind : st.comments.find? (fun c => decide (c.id = id)) = some c)
    (hroot : c.body.utf8ByteSize > 1024 * 128) (hparent : c.parent_author = "")
    (hn : 23 ≤ truncate_body) :
    ∃ d, get_discussion st id truncate_body = .ok d ∧ d.body = "body pruned due to size" := by
  have hbody := set_pending_payout_body_pruned st.evaluate_reward_curve st.reward_fund
    (discussion_of_comment c) hroot hparent
  have hcut : substr_utf8 ("body pruned due to size" : String).data truncate_body
      = some ("body pruned due to size" : String).data :=
    substr_utf8_all _ _ (by
      have h23 : String.utf8Len ("body pruned due to size" : String).data = 23 := by decide
      omega)
  have hne : truncate_body ≠ 0 := by omega
  unfold get_discussion
  simp only [hfind, hbody, hcut, ne_eq, hne, not_false_eq_true, if_true]
  exact ⟨_, rfl, rfl⟩

theorem set_pending_payout_reply_pruned (E : Nat → curve_id → Nat)
    (fund : reward_fund_object) (d : discussion) (hroot : d.body.utf8ByteSize ≤ 1024 * 128)
    (hsize : d.body.utf8ByteSize > 1024 * 16) (hparent : d.parent_author.utf8ByteSize > 0) :
    (set_pending_payout E fund d).body = "comment pruned due to size" := by
  have h1 : ¬ d.body.utf8ByteSize > 1024 * 128 := by omega
  unfold set_pending_payout
  simp only
  split <;> simp only [h1, if_false, hparent, hsize, and_self, if_true]

theorem get_discussion_of_pruned_reply (st : database_api_state) (id : comment_id_type)
    (truncate_body : Nat) (c : comment_object)
    (hfind : st.comments.find? (fun c => decide (c.id = id)) = some c)
    (hroot : c.body.utf8ByteSize ≤ 1024 * 128) (hsize : c.body.utf8ByteSize > 1024 * 16)
    (hparent : c.parent_author.utf8ByteSize > 0) (hn : 26 ≤ truncate_body) :
    ∃ d, get_discussion st id truncate_body = .ok d ∧
      d.body = "comment pruned due to size" := by
  have hbody := set_pending_payout_reply_pruned st.evaluate_reward_curve st.reward_fund
    (discussion_of_comment c) hroot hsize hparent
  have hcut : substr_utf8 ("comment pruned due to size" : String).data truncate_body
      = some ("comment pruned due to size" : String).data :=
    substr_utf8_all _ _ (by
      have h26 : String.utf8Len ("comment pruned due to size" : String).data = 26 := by
        decide
      omega)
  have hne : truncate_body ≠ 0 := by omega
  unfold get_discussion
  simp only [hfind, hbody, hcut, ne_eq, hne, not_false_eq_true, if_true]
  exact ⟨_, rfl, rfl⟩

/-- C24, as stated, fails: the body of the root post has 131073 bytes and the
body of the reply has 16385 bytes, both more than the 100 bytes asked for, but
`set_pending_payout` replaces a body above `1024 * 128` bytes, or above
`1024 * 16` bytes for a reply, by a marker before the cut, so the bodies
returned by `get_discussion` are the markers of 23 and 26 bytes and not the
first 100 bytes of the bodies. -/
theorem get_discussion_body_pruned :
    (100 ≤ long_body.utf8ByteSize ∧
      ∃ d, get_discussion api_state_long 9 100 = .ok d ∧
        d.body = "body pruned due to size" ∧ d.body.utf8ByteSize ≠ 100) ∧
    (100 ≤ reply_body.utf8ByteSize ∧
      ∃ d, get_discussion api_state_long 10 100 = .ok d ∧
        d.body = "comment pruned due to size" ∧ d.body.utf8ByteSize ≠ 100) := by
  have hlen : long_body.utf8ByteSize = 131073 := utf8Len_replicate 131073
  have hlen' : reply_body.utf8ByteSize = 16385 := utf8Len_replicate 16385
  constructor
  · refine ⟨by omega, ?_⟩
    obtain ⟨d, hd, hb⟩ := get_discussion_of_pruned api_state_long 9 100
      { id := 9, author := "alice", permlink := "long", parent_author := "",
        net_rshares := 10, body := long_body }
      rfl (by show long_body.utf8ByteSize > 1024 * 128; omega) rfl (by omega)
    refine ⟨d, hd, hb, ?_⟩
    rw [hb]
    decide
  · refine ⟨by omega, ?_⟩
    obtain ⟨d, hd, hb⟩ := get_discussion_of_pruned_reply api_state_long 10 100
      { id := 10, author := "bob", permlink := "re-long", parent_author := "alice",
        net_rshares := 10, body := reply_body }
      rfl (by show reply_body.utf8ByteSize ≤ 1024 * 128; omega)
      (by show reply_body.utf8ByteSize > 1024 * 16; omega) (by decide) (by omega)
    refine ⟨d, hd, hb, ?_⟩
    rw [hb]
    decide

/-- C24, amended: for every comment whose body has at least `truncate_body`
bytes and is not pruned by `set_pending_payout` (at most `1024 * 128` bytes, and
at most `1024 * 16` bytes when it has a parent author), and every
`truncate_body > 0` at which the body is valid UTF-8 when cut, the discussion
returned by `get_discussion` has a body of exactly `truncate_body` bytes, the
first `truncate_body` bytes of the body of the comment. -/
theorem get_discussion_truncates_body (st : database_api_state) (id : comment_id_type)
    (truncate_body : Nat) (c : comment_object) (cs : List Char)
    (hfind : st.comments.find? (fun c => decide (c.id = id)) = some c)
    (hn : 0 < truncate_body) (hsize : truncate_body ≤ c.body.utf8ByteSize)
    (hroot : c.body.utf8ByteSize ≤ 1024 * 128)
    (hcomment : c.parent_author.utf8ByteSize > 0 → c.body.utf8ByteSize ≤ 1024 * 16)
    (hcut : substr_utf8 c.body.data truncate_body = some cs) :
    ∃ d, get_discussion st id truncate_body = .ok d ∧ d.body = String.mk cs ∧
      cs <+: c.body.data ∧ d.body.utf8ByteSize = truncate_body := by
  have hbody := set_pending_payout_body st.evaluate_reward_curve st.reward_fund
    (discussion_of_comment c) hroot hcomment
  have hbody' : (set_pending_payout st.evaluate_reward_curve st.reward_fund
      (discussion_of_comment c)).body = c.body := hbody
  obtain ⟨hpre, hlen⟩ := substr_utf8_spec c.body.data truncate_body cs hcut
  have hne : truncate_body ≠ 0 := by omega
  unfold get_discussion
  simp only [hfind, hbody', hcut, ne_eq, hne, not_false_eq_true, if_true]
  exact ⟨_, rfl, rfl, hpre, hlen hsize⟩

/-- Witness of the amended C24: the body `1234567890` cut to five bytes. -/
theorem get_discussion_truncates_body_witness :
    ∃ d, get_discussion api_state_example 3 5 = .ok d ∧ d.body = String.mk "12345".data ∧
      "12345".data <+: "1234567890".data ∧ d.body.utf8ByteSize = 5 :=
  get_discussion_truncates_body api_state_example 3 5
    { id := 3, author := "alice", permlink := "pl3", parent_author := "",
      net_rshares := 30, body := "1234567890" }
    "12345".data (by decide) (by decide) (by decide) (by decide) (by decide) (by decide)

end chain
end scorum
